import Mathlib

/-!
# Connection FSM of `src/fsm.cc` and thread helpers of `src/utils.tcc`

A shallow embedding of the per-connection state machine of `src/fsm.cc`
(`fsm_init_state`, `return_to_fsm_socket_connected`, `fsm_destroy_state`,
`fsm_socket_ready`, `fsm_socket_send_incomplete`, `fsm_do_transition`), and, further
down, of the task objects of `src/utils.tcc` (`thread_doer_t`, `do_on_thread`,
`later_doer_t`, `do_later`).

The C++ functions mutate the `fsm_state_t` that `event->state` points to, call
the operating system (`read`, `close`) and call collaborators that are only
declared there (`process_command`, `send_err_to_client`,
`send_msg_to_client`, the allocator, `queue_forget_resource`).  Here

* the pointee of `event->state` is carried inside the event record;
* every call that leaves `fsm.cc` is appended to an effect trace, in call order;
* the results of `read(2)` are supplied by a script (a list, consumed one result
  per call; an exhausted script answers `EAGAIN`, an empty socket);
* the collaborators are parameters (`env_t`).
-/

namespace RethinkFsm

/-! ## Data model -/

/-- Modelled from the spec: the phase enumeration of `fsm_state_t`, declared in the
header `fsm.hpp`, which is not part of the sources at hand.  `fsm.cc` names three
values; `other` stands for any further value of the enumeration, the ones that
reach the `default:` arm of `fsm_do_transition`. -/
inductive state_t where
  | fsm_socket_connected
  | fsm_socket_recv_incomplete
  | fsm_socket_send_incomplete
  | other (n : Nat)
  deriving DecidableEq, Repr

/-- Modelled from the spec: the record `fsm_state_t` of the absent `fsm.hpp`, with the
fields `fsm.cc` uses.  `buf` is `none` for `NULL`, otherwise the bytes of the
`io_buffer_t` it points to; `nbuf` is the receive cursor, `snbuf` the send cursor,
`source` the descriptor (`-1` when unset). -/
structure fsm_state_t where
  state : state_t
  buf : Option (List Nat)
  nbuf : Nat
  snbuf : Nat
  source : Int
  deriving DecidableEq, Repr

/-- Modelled from the spec: the event kinds of the absent `event_queue.hpp`; `fsm.cc`
only distinguishes `et_sock` from everything else. -/
inductive event_type_t where
  | et_sock
  | et_other
  deriving DecidableEq, Repr

/-- Modelled from the spec: the readiness operations of the absent `event_queue.hpp`
(`Readable`, `Writable`, `ReadWrite`). -/
inductive event_op_t where
  | eo_read
  | eo_write
  | eo_rdwr
  deriving DecidableEq, Repr

/-- Modelled from the spec: the record `event_t` of the absent `event_queue.hpp`.  The
field `state` holds the pointee of `event->state` (the pointer is never null here,
which is what `assert(state)` in `fsm_do_transition` demands). -/
structure event_t where
  event_type : event_type_t
  op : event_op_t
  state : fsm_state_t
  deriving DecidableEq, Repr

/-- What one call of `read(2)` did: it stored `data` and returned its length, or it
returned `-1` and set `errno`. -/
inductive read_result_t where
  | bytes (data : List Nat)
  | error (errno : Int)
  deriving DecidableEq, Repr

/-- The value `read` returns. -/
def read_result_t.ret : read_result_t → Int
  | .bytes data => (data.length : Int)
  | .error _ => -1

/-- The value of `errno` after the call (only consulted after a `-1`). -/
def read_result_t.errno : read_result_t → Int
  | .bytes _ => 0
  | .error e => e

/-- The bytes the call stored at the address it was given. -/
def read_result_t.data : read_result_t → List Nat
  | .bytes data => data
  | .error _ => []

/-- `EAGAIN` of `errno.h` (Linux). -/
def EAGAIN : Int := 11

/-- `EWOULDBLOCK` of `errno.h` (Linux, where it equals `EAGAIN`). -/
def EWOULDBLOCK : Int := 11

/-- The calls that leave `fsm.cc`, as they appear in the trace.  `read` and the three
collaborator calls carry the connection state they were handed (and, for the
collaborators, the state they left), so that offsets, cursors and phases can be
read off the trace. -/
inductive effect_t where
  | alloc_malloc
  | alloc_free_buf (p : Option (List Nat))
  | read (st : fsm_state_t) (count : Int) (r : read_result_t)
  | process_command (st : fsm_state_t) (res : Int) (st' : fsm_state_t)
  | send_err_to_client (st : fsm_state_t) (st' : fsm_state_t)
  | send_msg_to_client (st : fsm_state_t) (st' : fsm_state_t)
  | printf_closing (fd : Int)
  | queue_forget_resource (fd : Int)
  | close (fd : Int)
  | live_fsms_remove
  | alloc_free_state
  deriving DecidableEq, Repr

/-- Modelled from the spec: the collaborators `fsm.cc` calls but does not define, and
the constant `IO_BUFFER_SIZE`.  `process_command` returns its `int` result and the
connection state as it left it; the two senders return the state as they left it. -/
structure env_t where
  IO_BUFFER_SIZE : Nat
  process_command : fsm_state_t → Int × fsm_state_t
  send_err_to_client : fsm_state_t → fsm_state_t
  send_msg_to_client : fsm_state_t → fsm_state_t

/-- The event being handled (with the connection state it points to) and the effects
so far, oldest first. -/
structure config_t where
  event : event_t
  trace : List effect_t
  deriving DecidableEq, Repr

/-- How a call ends: it returns to its caller with the connection alive, it returns
after `fsm_destroy_state` freed the connection (the state kept in the record is then
the last contents of the freed memory), or `check` terminated the process. -/
inductive result_t where
  | returned (c : config_t)
  | destroyed (c : config_t)
  | fatal (c : config_t)
  deriving DecidableEq, Repr

/-- The configuration a call ended in. -/
def result_t.config : result_t → config_t
  | .returned c => c
  | .destroyed c => c
  | .fatal c => c

/-- Modelled from the spec: the macro `check(msg, err)` of the absent `utils.hpp`; it
terminates the process when `err` holds (§7, fatal-local) and is a no-op otherwise.
The value says whether the process was terminated. -/
def check (_msg : String) (err : Bool) : Bool := err

/-- Storing `data` at `buf + off`. -/
def buf_write (b : List Nat) (off : Nat) (data : List Nat) : List Nat :=
  b.take off ++ data ++ b.drop (off + data.length)

/-! ## The functions of `fsm.cc` -/

/-- The function `fsm_init_state`. -/
def fsm_init_state (st : fsm_state_t) : fsm_state_t :=
  { st with state := .fsm_socket_connected, buf := none, nbuf := 0, snbuf := 0 }

/-- The function `return_to_fsm_socket_connected`: free `state->buf` (whatever it is),
then `fsm_init_state`. -/
def return_to_fsm_socket_connected (c : config_t) : config_t :=
  { event := { c.event with state := fsm_init_state c.event.state },
    trace := c.trace ++ [effect_t.alloc_free_buf c.event.state.buf] }

/-- The effects of `fsm_destroy_state` on a state, in order. -/
def fsm_destroy_effects (st : fsm_state_t) : List effect_t :=
  (if st.buf ≠ none then [effect_t.alloc_free_buf st.buf] else []) ++
  (if st.source ≠ -1 then
      [effect_t.printf_closing st.source, effect_t.queue_forget_resource st.source,
       effect_t.close st.source]
    else []) ++
  [effect_t.live_fsms_remove, effect_t.alloc_free_state]

/-- The function `fsm_destroy_state`. -/
def fsm_destroy_state (c : config_t) : config_t :=
  { c with trace := c.trace ++ fsm_destroy_effects c.event.state }

/-- The branch of the drain loop for `EAGAIN`/`EWOULDBLOCK`: release the buffer unless
the phase is `fsm_socket_recv_incomplete`, then `break`. -/
def on_would_block (c : config_t) : result_t :=
  if c.event.state.state ≠ state_t.fsm_socket_recv_incomplete then
    .returned (return_to_fsm_socket_connected c)
  else
    .returned c

/-- The call `read(state->source, state->buf + state->nbuf, IO_BUFFER_SIZE - state->nbuf)`
as a trace entry. -/
def read_effect (env : env_t) (st : fsm_state_t) (r : read_result_t) : effect_t :=
  effect_t.read st ((env.IO_BUFFER_SIZE : Int) - (st.nbuf : Int)) r

/-- The `do ... while(1)` loop of `fsm_socket_ready`; the first argument is the script
of `read` results.  Every iteration performs one `read`, so the loop ends with the
script at the latest. -/
def drain_loop (env : env_t) : List read_result_t → config_t → result_t
  | [], c =>
    on_would_block
      { c with trace := c.trace ++ [read_effect env c.event.state (.error EAGAIN)] }
  | r :: rest, c =>
    let c1 : config_t := { c with trace := c.trace ++ [read_effect env c.event.state r] }
    let sz : Int := r.ret
    if sz = -1 then
      if r.errno = EAGAIN ∨ r.errno = EWOULDBLOCK then
        on_would_block c1
      else if check "Could not read from socket" (decide (sz = -1)) then
        .fatal c1
      else
        drain_loop env rest c1
    else if sz > 0 then
      let st := c1.event.state
      let st1 : fsm_state_t :=
        { st with buf := st.buf.map (fun b => buf_write b st.nbuf r.data),
                  nbuf := st.nbuf + sz.toNat }
      let res : Int := (env.process_command st1).1
      let st2 : fsm_state_t := (env.process_command st1).2
      let c2 : config_t :=
        { event := { c1.event with state := st2 },
          trace := c1.trace ++ [effect_t.process_command st1 res st2] }
      if res = -1 ∨ res = 0 then
        let c3 : config_t :=
          if res = -1 then
            { event := { c2.event with state := env.send_err_to_client st2 },
              trace := c2.trace ++
                [effect_t.send_err_to_client st2 (env.send_err_to_client st2)] }
          else c2
        if c3.event.state.state ≠ state_t.fsm_socket_send_incomplete then
          drain_loop env rest
            { c3 with event := { c3.event with state :=
                { c3.event.state with state := .fsm_socket_connected, nbuf := 0, snbuf := 0 } } }
        else
          .returned c3
      else if res = 1 then
        drain_loop env rest
          { c2 with event := { c2.event with state :=
              { c2.event.state with state := .fsm_socket_recv_incomplete } } }
      else if res = 2 then
        .returned c2
      else
        drain_loop env rest c2
    else
      .destroyed (fsm_destroy_state c1)

/-- The function `fsm_socket_ready`. -/
def fsm_socket_ready (env : env_t) (reads : List read_result_t) (c : config_t) : result_t :=
  if c.event.event_type = event_type_t.et_sock then
    if c.event.op = event_op_t.eo_rdwr ∨ c.event.op = event_op_t.eo_read then
      let c1 : config_t :=
        if c.event.state.buf = none then
          { event := { c.event with state :=
              { c.event.state with
                buf := some (List.replicate env.IO_BUFFER_SIZE 0), nbuf := 0 } },
            trace := c.trace ++ [effect_t.alloc_malloc] }
        else c
      drain_loop env reads c1
    else
      .returned c
  else if check "fsm_socket_ready: Invalid event" true then
    .fatal c
  else
    .returned c

/-- The function `fsm_socket_send_incomplete`. -/
def fsm_socket_send_incomplete (env : env_t) (reads : List read_result_t) (c : config_t) :
    result_t :=
  if c.event.event_type = event_type_t.et_sock then
    let c1 : config_t :=
      if c.event.op = event_op_t.eo_rdwr ∨ c.event.op = event_op_t.eo_write then
        { event := { c.event with state := env.send_msg_to_client c.event.state },
          trace := c.trace ++
            [effect_t.send_msg_to_client c.event.state
              (env.send_msg_to_client c.event.state)] }
      else c
    if c1.event.state.state ≠ state_t.fsm_socket_send_incomplete then
      fsm_socket_ready env reads { c1 with event := { c1.event with op := .eo_read } }
    else
      .returned c1
  else if check "fsm_socket_send_ready: Invalid event" true then
    .fatal c
  else
    .returned c

/-- The function `fsm_do_transition`. -/
def fsm_do_transition (env : env_t) (reads : List read_result_t) (c : config_t) : result_t :=
  match c.event.state.state with
  | .fsm_socket_connected => fsm_socket_ready env reads c
  | .fsm_socket_recv_incomplete => fsm_socket_ready env reads c
  | .fsm_socket_send_incomplete => fsm_socket_send_incomplete env reads c
  | .other _ => if check "Invalid state" true then .fatal c else .returned c

/-- The configuration after the `read` call of an iteration has been logged. -/
def after_read (env : env_t) (c : config_t) (r : read_result_t) : config_t :=
  { c with trace := c.trace ++ [read_effect env c.event.state r] }

/-- The connection state after `state->nbuf += sz`, with the bytes stored. -/
def advance (st : fsm_state_t) (data : List Nat) : fsm_state_t :=
  { st with buf := st.buf.map (fun b => buf_write b st.nbuf data),
            nbuf := st.nbuf + data.length }

/-- The call of `process_command` on a state, as a trace entry. -/
def process_effect (env : env_t) (st : fsm_state_t) : effect_t :=
  effect_t.process_command st (env.process_command st).1 (env.process_command st).2

/-- The call of `send_err_to_client` on a state, as a trace entry. -/
def send_err_effect (env : env_t) (st : fsm_state_t) : effect_t :=
  effect_t.send_err_to_client st (env.send_err_to_client st)

/-- The configuration after `process_command` returned. -/
def after_command (env : env_t) (c : config_t) (r : read_result_t) : config_t :=
  { event := { c.event with state := (env.process_command (advance c.event.state r.data)).2 },
    trace := c.trace ++ [read_effect env c.event.state r,
      process_effect env (advance c.event.state r.data)] }

/-- The configuration after `send_err_to_client` returned. -/
def after_send_err (env : env_t) (c : config_t) : config_t :=
  { event := { c.event with state := env.send_err_to_client c.event.state },
    trace := c.trace ++ [send_err_effect env c.event.state] }

/-- The three assignments that put the connection back to the clean connected phase
inside the loop (the buffer stays). -/
def reset_connected (c : config_t) : config_t :=
  { c with event := { c.event with state :=
      { c.event.state with state := .fsm_socket_connected, nbuf := 0, snbuf := 0 } } }

/-- The assignment `state->state = fsm_socket_recv_incomplete`. -/
def set_recv_incomplete (c : config_t) : config_t :=
  { c with event := { c.event with state :=
      { c.event.state with state := .fsm_socket_recv_incomplete } } }

/-- Effects an iteration emits before the loop goes round again: a `read` that
returned a positive count, the command processor, an error response. -/
def effect_t.inert : effect_t → Prop
  | .read _ _ r => 0 < r.ret
  | .process_command _ _ _ => True
  | .send_err_to_client _ _ => True
  | _ => False

/-- Effects of the collaborators called after a positive read. -/
def effect_t.command_part : effect_t → Prop
  | .process_command _ _ _ => True
  | .send_err_to_client _ _ => True
  | _ => False

/-- How the drain loop ends: the last `read`, the effects after it, the result. -/
inductive loop_exit : effect_t → List effect_t → result_t → Prop
  | would_block_keep (st : fsm_state_t) (cnt : Int) (e : Int) (c : config_t) :
      (e = EAGAIN ∨ e = EWOULDBLOCK) → st.state = state_t.fsm_socket_recv_incomplete →
      c.event.state = st →
      loop_exit (.read st cnt (.error e)) [] (.returned c)
  | would_block_free (st : fsm_state_t) (cnt : Int) (e : Int) (c : config_t) :
      (e = EAGAIN ∨ e = EWOULDBLOCK) → st.state ≠ state_t.fsm_socket_recv_incomplete →
      c.event.state = fsm_init_state st →
      loop_exit (.read st cnt (.error e)) [.alloc_free_buf st.buf] (.returned c)
  | read_error (st : fsm_state_t) (cnt : Int) (e : Int) (c : config_t) :
      ¬ (e = EAGAIN ∨ e = EWOULDBLOCK) →
      loop_exit (.read st cnt (.error e)) [] (.fatal c)
  | peer_closed (st : fsm_state_t) (cnt : Int) (c : config_t) :
      c.event.state = st →
      loop_exit (.read st cnt (.bytes [])) (fsm_destroy_effects st) (.destroyed c)
  | stopped (st : fsm_state_t) (cnt : Int) (r : read_result_t) (post : List effect_t)
      (c : config_t) :
      0 < r.ret → (∀ e ∈ post, e.command_part) →
      loop_exit (.read st cnt r) post (.returned c)

/-- The configuration after `send_msg_to_client` returned. -/
def after_send_msg (env : env_t) (c : config_t) : config_t :=
  { event := { c.event with state := env.send_msg_to_client c.event.state },
    trace := c.trace ++
      [effect_t.send_msg_to_client c.event.state (env.send_msg_to_client c.event.state)] }

/-! ## Reading a trace -/

/-- The effects a call added: the trace it ended with, without the trace it started from. -/
def new_effects (before : config_t) (after : config_t) : List effect_t :=
  after.trace.drop before.trace.length

/-- Whether the effect hands a buffer back to the allocator (a `free` of a null pointer
hands back nothing). -/
def effect_t.is_buf_release : effect_t → Bool
  | .alloc_free_buf (some _) => true
  | _ => false

/-- Whether the effect is a call of `send_msg_to_client`. -/
def effect_t.is_send_msg : effect_t → Bool
  | .send_msg_to_client _ _ => true
  | _ => false

/-- Whether the effect is a call of `send_err_to_client`. -/
def effect_t.is_send_err : effect_t → Bool
  | .send_err_to_client _ _ => true
  | _ => false

/-- Whether the effect is a call of `read`. -/
def effect_t.is_read : effect_t → Bool
  | .read _ _ _ => true
  | _ => false

/-- Whether the effect is a call of `process_command`. -/
def effect_t.is_command : effect_t → Bool
  | .process_command _ _ _ => true
  | _ => false

/-- Whether the effect is one of those `fsm_destroy_state` alone produces. -/
def effect_t.is_teardown : effect_t → Bool
  | .printf_closing _ => true
  | .queue_forget_resource _ => true
  | .close _ => true
  | .live_fsms_remove => true
  | .alloc_free_state => true
  | _ => false

/-! ## Sample collaborators, for concrete runs -/

/-- The bytes the connection has accumulated: the first `nbuf` bytes of its buffer. -/
def accumulated (st : fsm_state_t) : List Nat :=
  (st.buf.getD []).take st.nbuf

/-- A line-oriented sample processor: more data is needed until a newline (10) has
arrived; a line starting with `!` (33) is malformed; a line starting with `q` (113)
closes the session; any other line is a complete command.  It leaves the state alone. -/
def line_processor (st : fsm_state_t) : Int × fsm_state_t :=
  if 10 ∈ accumulated st then
    if (accumulated st).head? = some 33 then (-1, st)
    else if (accumulated st).head? = some 113 then (2, st)
    else (0, st)
  else (1, st)

/-- Sample collaborators whose sends always complete at once. -/
def sample_env : env_t :=
  { IO_BUFFER_SIZE := 8,
    process_command := line_processor,
    send_err_to_client := fun st => st,
    send_msg_to_client := fun st =>
      { st with state := state_t.fsm_socket_connected, snbuf := 0 } }

/-- Sample collaborators whose sends never complete: every send leaves the phase at
`fsm_socket_send_incomplete` with one byte flushed. -/
def slow_env : env_t :=
  { IO_BUFFER_SIZE := 8,
    process_command := line_processor,
    send_err_to_client := fun st =>
      { st with state := state_t.fsm_socket_send_incomplete, snbuf := 1 },
    send_msg_to_client := fun st =>
      { st with state := state_t.fsm_socket_send_incomplete, snbuf := st.snbuf + 1 } }

/-- A freshly initialised connection on descriptor 5. -/
def fresh_state : fsm_state_t :=
  fsm_init_state { state := state_t.other 0, buf := none, nbuf := 7, snbuf := 7, source := 5 }

/-- A readable socket event on the fresh connection, with an empty trace. -/
def fresh_config : config_t :=
  { event := { event_type := event_type_t.et_sock, op := event_op_t.eo_read,
               state := fresh_state },
    trace := [] }

/-- The first statement of the readable branch of `fsm_socket_ready`: acquire a buffer
and zero the cursor when none is held. -/
def acquire_buffer (env : env_t) (c : config_t) : config_t :=
  if c.event.state.buf = none then
    { event := { c.event with state :=
        { c.event.state with buf := some (List.replicate env.IO_BUFFER_SIZE 0), nbuf := 0 } },
      trace := c.trace ++ [effect_t.alloc_malloc] }
  else c

/-- A writable socket event on a connection in the middle of a send. -/
def sending_config : config_t :=
  { event := { event_type := event_type_t.et_sock, op := event_op_t.eo_write,
               state := { state := state_t.fsm_socket_send_incomplete, buf := some [80, 10],
                          nbuf := 2, snbuf := 1, source := 5 } },
    trace := [] }

/-- The offsets (`state->nbuf`) at which the reads of a trace were placed, in order. -/
def read_offsets (t : List effect_t) : List Nat :=
  t.filterMap (fun e => match e with
    | .read st _ _ => some st.nbuf
    | _ => none)

/-- The cursor `state->nbuf` each call of `process_command` in a trace saw, in order. -/
def command_lens (t : List effect_t) : List Nat :=
  t.filterMap (fun e => match e with
    | .process_command st _ _ => some st.nbuf
    | _ => none)

/-- The accumulated bytes each call of `process_command` in a trace saw, in order. -/
def command_views (t : List effect_t) : List (List Nat) :=
  t.filterMap (fun e => match e with
    | .process_command st _ _ => some (accumulated st)
    | _ => none)

/-- The fresh connection after the single byte `A` has been read and the processor has
asked for more: phase recv-incomplete, one byte accumulated. -/
def fresh_state_after_A : fsm_state_t :=
  { state := state_t.fsm_socket_recv_incomplete, buf := some [65, 0, 0, 0, 0, 0, 0, 0],
    nbuf := 1, snbuf := 0, source := 5 }

/-- The driver hands the connection a new event: same connection state, same trace, the
kind and operation of the new event. -/
def next_event (c : config_t) (ty : event_type_t) (op : event_op_t) : config_t :=
  { event := { event_type := ty, op := op, state := c.event.state }, trace := c.trace }

/-- One delivery by the driver: the kind and operation of the event, and what the reads
on the socket will return while it is handled. -/
structure call_t where
  event_type : event_type_t
  op : event_op_t
  reads : List read_result_t

/-- The driver of the connection: it hands the events to `fsm_do_transition` one after
the other, for as long as the calls return with the connection alive. -/
def dispatch_all (env : env_t) : List call_t → config_t → result_t
  | [], c => .returned c
  | k :: ks, c =>
    match fsm_do_transition env k.reads (next_event c k.event_type k.op) with
    | .returned c' => dispatch_all env ks c'
    | .destroyed c' => .destroyed c'
    | .fatal c' => .fatal c'

/-- The buffer discipline between dispatch calls: a connected connection holds no
buffer, one in phase recv-incomplete holds one. -/
def settled (st : fsm_state_t) : Prop :=
  (st.state = state_t.fsm_socket_connected → st.buf = none) ∧
  (st.state = state_t.fsm_socket_recv_incomplete → st.buf ≠ none)

/-- Whether the call returned with the connection alive. -/
def result_t.is_returned : result_t → Bool
  | .returned _ => true
  | _ => false

/-- The line-oriented sample processor without the closing command: it answers error,
complete or need-more-data only. -/
def plain_processor (st : fsm_state_t) : Int × fsm_state_t :=
  if 10 ∈ accumulated st then
    if (accumulated st).head? = some 33 then (-1, st) else (0, st)
  else (1, st)

/-- Sample collaborators around `plain_processor`, with sends that complete at once. -/
def plain_env : env_t :=
  { IO_BUFFER_SIZE := 8,
    process_command := plain_processor,
    send_err_to_client := fun st => st,
    send_msg_to_client := fun st =>
      { st with state := state_t.fsm_socket_connected, snbuf := 0 } }

/-- A sample sequence of deliveries: `AB` arrives, then an unsolicited writable event,
then `C` and a newline. -/
def sample_calls : List call_t :=
  [ { event_type := event_type_t.et_sock, op := event_op_t.eo_read,
      reads := [.bytes [65, 66], .error 11] },
    { event_type := event_type_t.et_sock, op := event_op_t.eo_write, reads := [] },
    { event_type := event_type_t.et_sock, op := event_op_t.eo_rdwr,
      reads := [.bytes [67, 10], .error 11] } ]

/-- A single delivery: the line `q` arrives, which the sample processor answers with
connection-closing. -/
def closing_calls : List call_t :=
  [ { event_type := event_type_t.et_sock, op := event_op_t.eo_read,
      reads := [.bytes [113, 10], .error 11] } ]

/-- A writable-only socket event on the connection that holds the byte `A` in phase
recv-incomplete. -/
def writable_config : config_t :=
  { event := { event_type := event_type_t.et_sock, op := event_op_t.eo_write,
               state := fresh_state_after_A },
    trace := [] }

/-- A readable socket event on a connection in the middle of a send. -/
def sending_readable_config : config_t :=
  { event := { event_type := event_type_t.et_sock, op := event_op_t.eo_read,
               state := sending_config.event.state },
    trace := [] }

/-- An event that is not a socket event, on a connection in the middle of a send. -/
def foreign_config : config_t :=
  { event := { event_type := event_type_t.et_other, op := event_op_t.eo_read,
               state := sending_config.event.state },
    trace := [] }

/-- The connection of `sending_config` at the moment the read pass after the completed
send finds the socket empty: both lines handled, cursors reset, buffer still held. -/
def resumed_state : fsm_state_t :=
  { state := state_t.fsm_socket_connected, buf := some [80, 10, 81, 10], nbuf := 0,
    snbuf := 0, source := 5 }

/-- Whether the effect respects the contract of `read(2)`: a `read` returns no more than
the count it was asked for (other effects are not concerned). -/
def effect_t.within_request : effect_t → Bool
  | .read _ cnt r => decide (r.ret ≤ cnt)
  | _ => true

/-- A connection whose eight-byte buffer is full of an unfinished command. -/
def full_config : config_t :=
  { event := { event_type := event_type_t.et_sock, op := event_op_t.eo_read,
               state := { state := state_t.fsm_socket_recv_incomplete,
                          buf := some [65, 66, 67, 68, 69, 70, 71, 72], nbuf := 8,
                          snbuf := 0, source := 5 } },
    trace := [] }

/-- A sample sequence of deliveries to the full connection: a readable event that finds
the zero-byte read blocking, a writable event, and a readable event whose zero-byte read
returns zero. -/
def full_calls : List call_t :=
  [ { event_type := event_type_t.et_sock, op := event_op_t.eo_read, reads := [.error 11] },
    { event_type := event_type_t.et_sock, op := event_op_t.eo_write, reads := [] },
    { event_type := event_type_t.et_sock, op := event_op_t.eo_rdwr, reads := [.bytes []] } ]

/-- Sample collaborators whose processor answers a complete line by starting a response
that does not go out in one piece (it leaves the phase at send-incomplete), and whose
`send_msg_to_client` then finishes the send without touching the receive side. -/
def replying_env : env_t :=
  { IO_BUFFER_SIZE := 8,
    process_command := fun st =>
      if 10 ∈ accumulated st then
        (0, { st with state := state_t.fsm_socket_send_incomplete, snbuf := 1 })
      else (1, st),
    send_err_to_client := fun st => st,
    send_msg_to_client := fun st => { st with state := state_t.fsm_socket_connected } }

/-- The fresh connection after the line `P` was handled by `replying_env` and its
response is still pending: phase send-incomplete, two bytes still counted. -/
def pending_reply_config : config_t :=
  { event := { event_type := event_type_t.et_sock, op := event_op_t.eo_write,
               state := { state := state_t.fsm_socket_send_incomplete,
                          buf := some [80, 10, 0, 0, 0, 0, 0, 0], nbuf := 2, snbuf := 1,
                          source := 5 } },
    trace := [] }

/-! ## The thread helpers of `utils.tcc`

`thread_doer_t` and `later_doer_t` are self-owned task objects.  The scheduler they talk
to (`continue_on_thread`, `call_later_on_this_thread`, `get_thread_id`) and the base class
that supplies `home_thread` are not part of the sources at hand.  Here a world holds the
thread that is running, the task object (absent once deleted), the messages the
scheduler still owes, the data the payload works on, and a log of what happened, in
order.  Threads take turns: one message is handled at a time. -/

/-- The enumeration `thread_doer_t::state_t`; `other` stands for any value outside it,
the ones that reach the `default:` arm of `on_thread_switch`. -/
inductive doer_state_t where
  | state_go_to_core
  | state_go_home
  | other (n : Nat)
  deriving DecidableEq, Repr

/-- The members of a `thread_doer_t` object other than the payload: the target
`thread`, the `home_thread` of its base class `home_thread_mixin_t`, and `state`. -/
structure thread_doer_t where
  thread : Int
  home_thread : Int
  state : doer_state_t
  deriving DecidableEq, Repr

/-- What the thread helpers do, as it appears in the log.  Every entry carries the
thread it happened on; the payload call and the deletion of a `thread_doer_t` also carry
the object as it was at that moment, the payload call of a `later_doer_t` carries
whether the object still existed. -/
inductive thread_effect_t where
  | new_thread_doer (current : Int) (thread : Int)
  | continue_on_thread (current : Int) (thread : Int) (ret : Bool)
  | callable (current : Int) (task : thread_doer_t)
  | delete_this (current : Int) (task : thread_doer_t)
  | rassert_failed (current : Int)
  | unreachable (current : Int)
  | use_after_delete (current : Int)
  | new_later_doer (current : Int)
  | call_later_on_this_thread (current : Int)
  | copy_callable (current : Int)
  | delete_later_doer (current : Int)
  | local_callable (current : Int) (task_alive : Bool)
  deriving DecidableEq, Repr

/-- The world of a `thread_doer_t`: the running thread (`get_thread_id()`), the object
(`none` once deleted), the threads on which the scheduler still owes the object an
`on_thread_switch` (oldest first), the data the payload works on, the log, and whether
an assertion has stopped the process. -/
structure doer_world_t (σ : Type) where
  current : Int
  task : Option thread_doer_t
  queue : List Int
  user : σ
  log : List thread_effect_t
  aborted : Bool
  deriving DecidableEq, Repr

/-- Write one entry in the log. -/
def doer_world_t.emit {σ : Type} (w : doer_world_t σ) (e : thread_effect_t) : doer_world_t σ :=
  { w with log := w.log ++ [e] }

/-- Stop the process with a diagnostic entry. -/
def doer_world_t.abort {σ : Type} (w : doer_world_t σ) (e : thread_effect_t) :
    doer_world_t σ :=
  { w with log := w.log ++ [e], aborted := true }

/-- Modelled from the spec: the scheduler call `continue_on_thread(thread, this)`, which is
not part of the sources at hand.  Called for the running thread it answers `true` and
the caller goes on at once; called for another thread it hands the object to the
scheduler, to be woken up there (`on_thread_switch`), and answers `false`. -/
def continue_on_thread {σ : Type} (thread : Int) (w : doer_world_t σ) :
    Bool × doer_world_t σ :=
  if thread = w.current then
    (true, w.emit (.continue_on_thread w.current thread true))
  else
    (false, { w with queue := w.queue ++ [thread],
                     log := w.log ++ [.continue_on_thread w.current thread false] })

/-- The statement `delete this` of a `thread_doer_t`. -/
def delete_this {σ : Type} (w : doer_world_t σ) : doer_world_t σ :=
  match w.task with
  | none => w.abort (.use_after_delete w.current)
  | some t => { w with task := none, log := w.log ++ [.delete_this w.current t] }

/-- The method `thread_doer_t::do_return_home`. -/
def thread_doer_t.do_return_home {σ : Type} (w : doer_world_t σ) : doer_world_t σ :=
  match w.task with
  | none => w.abort (.use_after_delete w.current)
  | some t =>
    let w1 : doer_world_t σ := { w with task := some { t with state := .state_go_home } }
    if (continue_on_thread t.home_thread w1).1 then
      delete_this (continue_on_thread t.home_thread w1).2
    else
      (continue_on_thread t.home_thread w1).2

/-- The method `thread_doer_t::do_perform_job`; `rassert` is taken as a fatal assertion
(spec §4.2). -/
def thread_doer_t.do_perform_job {σ : Type} (callable : σ → σ) (w : doer_world_t σ) : doer_world_t σ :=
  match w.task with
  | none => w.abort (.use_after_delete w.current)
  | some t =>
    if t.thread = w.current then
      thread_doer_t.do_return_home
        { w with user := callable w.user, log := w.log ++ [.callable w.current t] }
    else
      w.abort (.rassert_failed w.current)

/-- The method `thread_doer_t::run`. -/
def thread_doer_t.run {σ : Type} (callable : σ → σ) (w : doer_world_t σ) : doer_world_t σ :=
  match w.task with
  | none => w.abort (.use_after_delete w.current)
  | some t =>
    let w1 : doer_world_t σ := { w with task := some { t with state := .state_go_to_core } }
    if (continue_on_thread t.thread w1).1 then
      thread_doer_t.do_perform_job callable (continue_on_thread t.thread w1).2
    else
      (continue_on_thread t.thread w1).2

/-- The method `thread_doer_t::on_thread_switch`. -/
def thread_doer_t.on_thread_switch {σ : Type} (callable : σ → σ) (w : doer_world_t σ) : doer_world_t σ :=
  match w.task with
  | none => w.abort (.use_after_delete w.current)
  | some t =>
    match t.state with
    | .state_go_to_core => thread_doer_t.do_perform_job callable w
    | .state_go_home => delete_this w
    | .other _ => w.abort (.unreachable w.current)

/-- The function `do_on_thread`: allocate the object (its constructor sets `thread`,
the state `state_go_to_core`, and, in the base class, `home_thread` to the running
thread), then `run`. -/
def do_on_thread {σ : Type} (thread : Int) (callable : σ → σ) (w : doer_world_t σ) :
    doer_world_t σ :=
  thread_doer_t.run callable
    { w with task := some { thread := thread, home_thread := w.current,
                            state := .state_go_to_core },
             log := w.log ++ [.new_thread_doer w.current thread] }

/-- Modelled from the spec: one turn of the scheduler (not part of the sources at
hand): the oldest message it owes is delivered, that is, the thread it was sent to
becomes the running thread and calls `on_thread_switch` of the object. -/
def deliver {σ : Type} (callable : σ → σ) (w : doer_world_t σ) : doer_world_t σ :=
  match w.queue with
  | [] => w
  | t :: q => thread_doer_t.on_thread_switch callable { w with current := t, queue := q }

/-- Modelled from the spec: the scheduler keeps delivering until it owes nothing or the
process has stopped; the first argument bounds the number of turns. -/
def run_scheduler {σ : Type} (callable : σ → σ) : Nat → doer_world_t σ → doer_world_t σ
  | 0, w => w
  | n + 1, w =>
    if w.queue = [] ∨ w.aborted = true then w
    else run_scheduler callable n (deliver callable w)

/-- A world in which nothing has happened yet, running on thread `origin`. -/
def idle_world {σ : Type} (origin : Int) (user : σ) : doer_world_t σ :=
  { current := origin, task := none, queue := [], user := user, log := [], aborted := false }

/-- The world of a `later_doer_t`: the running thread, whether the object exists, the
threads on whose run loop the object is queued (oldest first), the data the payload
works on, the log, and whether the process has stopped. -/
structure later_world_t (σ : Type) where
  current : Int
  task_alive : Bool
  later_queue : List Int
  user : σ
  log : List thread_effect_t
  aborted : Bool
  deriving DecidableEq, Repr

/-- Modelled from the spec: the scheduler call `call_later_on_this_thread(this)`, which
is not part of the sources at hand: the object is queued on the run loop of the running
thread, to be woken up (`on_thread_switch`) after the current stack has unwound. -/
def call_later_on_this_thread {σ : Type} (w : later_world_t σ) : later_world_t σ :=
  { w with later_queue := w.later_queue ++ [w.current],
           log := w.log ++ [.call_later_on_this_thread w.current] }

/-- The method `later_doer_t::on_thread_switch`: copy the payload, `delete this`, call
the copy. -/
def later_doer_t.on_thread_switch {σ : Type} (callable : σ → σ) (w : later_world_t σ) :
    later_world_t σ :=
  if w.task_alive = true then
    let w1 : later_world_t σ := { w with log := w.log ++ [.copy_callable w.current] }
    let w2 : later_world_t σ :=
      { w1 with task_alive := false, log := w1.log ++ [.delete_later_doer w1.current] }
    { w2 with user := callable w2.user,
              log := w2.log ++ [.local_callable w2.current w2.task_alive] }
  else
    { w with log := w.log ++ [.use_after_delete w.current], aborted := true }

/-- The function `do_later`: allocate the object; its constructor stores the payload
and calls `call_later_on_this_thread(this)`. -/
def do_later {σ : Type} (w : later_world_t σ) : later_world_t σ :=
  call_later_on_this_thread
    { w with task_alive := true, log := w.log ++ [.new_later_doer w.current] }

/-- Modelled from the spec: one turn of the run loop (not part of the sources at hand):
the oldest queued object is woken up on the thread it was queued on. -/
def deliver_later {σ : Type} (callable : σ → σ) (w : later_world_t σ) : later_world_t σ :=
  match w.later_queue with
  | [] => w
  | t :: q => later_doer_t.on_thread_switch callable { w with current := t, later_queue := q }

/-- A world in which nothing has been deferred yet, running on thread `origin`. -/
def idle_later_world {σ : Type} (origin : Int) (user : σ) : later_world_t σ :=
  { current := origin, task_alive := false, later_queue := [], user := user, log := [],
    aborted := false }

/-- Whether the log entry is an invocation of the payload. -/
def thread_effect_t.is_callable : thread_effect_t → Bool
  | .callable _ _ => true
  | .local_callable _ _ => true
  | _ => false

/-- Whether the log entry is the deletion of the task object. -/
def thread_effect_t.is_delete : thread_effect_t → Bool
  | .delete_this _ _ => true
  | .delete_later_doer _ => true
  | _ => false

/-! ## Unfolding the drain loop -/

@[simp] theorem check_true (msg : String) : check msg true = true := rfl

theorem drain_loop_nil (env : env_t) (c : config_t) :
    drain_loop env [] c = on_would_block (after_read env c (.error EAGAIN)) := rfl

theorem drain_loop_would_block (env : env_t) (e : Int) (rest : List read_result_t)
    (c : config_t) (he : e = EAGAIN ∨ e = EWOULDBLOCK) :
    drain_loop env (.error e :: rest) c = on_would_block (after_read env c (.error e)) := by
  simp [drain_loop, read_result_t.ret, read_result_t.errno, he, after_read]

theorem drain_loop_read_error (env : env_t) (e : Int) (rest : List read_result_t)
    (c : config_t) (he : ¬ (e = EAGAIN ∨ e = EWOULDBLOCK)) :
    drain_loop env (.error e :: rest) c = .fatal (after_read env c (.error e)) := by
  simp [drain_loop, read_result_t.ret, read_result_t.errno, he, after_read, check]

theorem drain_loop_zero (env : env_t) (rest : List read_result_t) (c : config_t) :
    drain_loop env (.bytes [] :: rest) c =
      .destroyed (fsm_destroy_state (after_read env c (.bytes []))) := by
  simp [drain_loop, read_result_t.ret, after_read]

theorem ret_bytes_pos (x : Nat) (xs : List Nat) :
    (read_result_t.bytes (x :: xs)).ret ≠ -1 ∧ (read_result_t.bytes (x :: xs)).ret > 0 := by
  simp [read_result_t.ret]; omega

theorem drain_loop_data (env : env_t) (x : Nat) (xs : List Nat) (rest : List read_result_t)
    (c : config_t) :
    drain_loop env (.bytes (x :: xs) :: rest) c =
      let c2 := after_command env c (.bytes (x :: xs))
      let res := (env.process_command (advance c.event.state (x :: xs))).1
      if res = -1 ∨ res = 0 then
        let c3 : config_t := if res = -1 then after_send_err env c2 else c2
        if c3.event.state.state ≠ state_t.fsm_socket_send_incomplete then
          drain_loop env rest (reset_connected c3)
        else
          .returned c3
      else if res = 1 then
        drain_loop env rest (set_recv_incomplete c2)
      else if res = 2 then
        .returned c2
      else
        drain_loop env rest c2 := by
  have h := ret_bytes_pos x xs
  rw [drain_loop]
  simp only [h.1, h.2, if_true, if_false]
  simp [after_command, advance, read_result_t.ret, read_result_t.data, List.append_assoc,
    after_send_err, reset_connected, set_recv_incomplete, process_effect, send_err_effect]

@[simp] theorem reset_connected_trace (c : config_t) : (reset_connected c).trace = c.trace := rfl

@[simp] theorem set_recv_incomplete_trace (c : config_t) :
    (set_recv_incomplete c).trace = c.trace := rfl

@[simp] theorem after_send_err_trace (env : env_t) (c : config_t) :
    (after_send_err env c).trace = c.trace ++ [send_err_effect env c.event.state] := rfl

@[simp] theorem after_command_trace (env : env_t) (c : config_t) (r : read_result_t) :
    (after_command env c r).trace = c.trace ++ [read_effect env c.event.state r,
      process_effect env (advance c.event.state r.data)] := rfl

@[simp] theorem after_command_state (env : env_t) (c : config_t) (r : read_result_t) :
    (after_command env c r).event.state = (env.process_command (advance c.event.state r.data)).2 :=
  rfl

@[simp] theorem after_read_trace (env : env_t) (c : config_t) (r : read_result_t) :
    (after_read env c r).trace = c.trace ++ [read_effect env c.event.state r] := rfl

@[simp] theorem after_read_event (env : env_t) (c : config_t) (r : read_result_t) :
    (after_read env c r).event = c.event := rfl

theorem on_would_block_exit (env : env_t) (c : config_t) (e : Int)
    (he : e = EAGAIN ∨ e = EWOULDBLOCK) :
    ∃ post, (on_would_block (after_read env c (.error e))).config.trace
        = c.trace ++ read_effect env c.event.state (.error e) :: post ∧
      loop_exit (read_effect env c.event.state (.error e)) post
        (on_would_block (after_read env c (.error e))) := by
  by_cases hp : c.event.state.state = state_t.fsm_socket_recv_incomplete
  · refine ⟨[], ?_, ?_⟩
    · simp [on_would_block, hp, result_t.config]
    · simp only [on_would_block, after_read_event, hp, ne_eq, not_true_eq_false, if_false]
      exact loop_exit.would_block_keep _ _ _ _ he hp rfl
  · refine ⟨[.alloc_free_buf c.event.state.buf], ?_, ?_⟩
    · simp [on_would_block, hp, result_t.config, return_to_fsm_socket_connected]
    · simp only [on_would_block, after_read_event, hp, ne_eq, not_false_eq_true, if_true]
      exact loop_exit.would_block_free _ _ _ _ he hp rfl

theorem inert_read_pos (env : env_t) (st : fsm_state_t) (r : read_result_t) (h : 0 < r.ret) :
    (read_effect env st r).inert := h

theorem drain_loop_shape (env : env_t) (reads : List read_result_t) :
    ∀ c : config_t, ∃ pre last post,
      (drain_loop env reads c).config.trace = c.trace ++ pre ++ last :: post ∧
      (∀ e ∈ pre, e.inert) ∧ loop_exit last post (drain_loop env reads c) := by
  induction reads with
  | nil =>
    intro c
    obtain ⟨post, h1, h2⟩ := on_would_block_exit env c EAGAIN (Or.inl rfl)
    exact ⟨[], _, post, by simpa [drain_loop_nil] using h1, by simp,
      by simpa [drain_loop_nil] using h2⟩
  | cons r rest ih =>
    intro c
    cases r with
    | error e =>
      by_cases he : e = EAGAIN ∨ e = EWOULDBLOCK
      · obtain ⟨post, h1, h2⟩ := on_would_block_exit env c e he
        rw [drain_loop_would_block env e rest c he]
        exact ⟨[], _, post, by simpa using h1, by simp, h2⟩
      · rw [drain_loop_read_error env e rest c he]
        exact ⟨[], read_effect env c.event.state (.error e), [], by simp [result_t.config],
          by simp, loop_exit.read_error _ _ _ _ he⟩
    | bytes d =>
      cases d with
      | nil =>
        rw [drain_loop_zero]
        exact ⟨[], _, _, by simp [result_t.config, fsm_destroy_state]; rfl, by simp,
          loop_exit.peer_closed _ _ _ rfl⟩
      | cons x xs =>
        have hpos := (ret_bytes_pos x xs).2
        have hin := inert_read_pos env c.event.state _ hpos
        rw [drain_loop_data]
        simp only
        by_cases h1 : (env.process_command (advance c.event.state (x :: xs))).1 = -1
        · simp only [h1, true_or, if_true]
          by_cases h2 : (after_send_err env (after_command env c (.bytes (x :: xs)))).event.state.state
              = state_t.fsm_socket_send_incomplete
          · simp only [h2, ne_eq, not_true_eq_false, if_false]
            refine ⟨[], read_effect env c.event.state (.bytes (x :: xs)),
              [process_effect env (advance c.event.state (x :: xs)),
               send_err_effect env (env.process_command (advance c.event.state (x :: xs))).2], ?_, by simp,
              loop_exit.stopped c.event.state _ _ _ _ hpos ?_⟩
            · simp [result_t.config, read_result_t.data]
            · intro e he
              simp only [List.mem_cons, List.mem_singleton, List.not_mem_nil, or_false] at he
              rcases he with he | he <;> subst he <;> trivial
          · simp only [h2, ne_eq, not_false_eq_true, if_true]
            obtain ⟨pre, last, post, e1, e2, e3⟩ := ih (reset_connected
              (after_send_err env (after_command env c (.bytes (x :: xs)))))
            refine ⟨read_effect env c.event.state (.bytes (x :: xs)) ::
              process_effect env (advance c.event.state (x :: xs)) ::
              send_err_effect env (env.process_command (advance c.event.state (x :: xs))).2 :: pre,
              last, post, ?_, ?_, e3⟩
            · rw [e1]; simp [read_result_t.data]
            · intro e he
              simp only [List.mem_cons] at he
              rcases he with he | he | he | he
              · subst he; exact hin
              · subst he; trivial
              · subst he; trivial
              · exact e2 e he
        · by_cases h0 : (env.process_command (advance c.event.state (x :: xs))).1 = 0
          · simp only [h0, or_true, if_true, show ((0 : Int) = -1) = False by simp, if_false]
            by_cases h2 : (after_command env c (.bytes (x :: xs))).event.state.state
                = state_t.fsm_socket_send_incomplete
            · rw [if_neg (not_not.mpr h2)]
              refine ⟨[], read_effect env c.event.state (.bytes (x :: xs)),
                [process_effect env (advance c.event.state (x :: xs))], ?_, by simp,
                loop_exit.stopped c.event.state _ _ _ _ hpos ?_⟩
              · simp [result_t.config, read_result_t.data]
              · intro e he
                simp only [List.mem_singleton] at he
                subst he; trivial
            · rw [if_pos h2]
              obtain ⟨pre, last, post, e1, e2, e3⟩ := ih (reset_connected
                (after_command env c (.bytes (x :: xs))))
              refine ⟨read_effect env c.event.state (.bytes (x :: xs)) ::
                process_effect env (advance c.event.state (x :: xs)) :: pre,
                last, post, ?_, ?_, e3⟩
              · rw [e1]; simp [read_result_t.data]
              · intro e he
                simp only [List.mem_cons] at he
                rcases he with he | he | he
                · subst he; exact hin
                · subst he; trivial
                · exact e2 e he
          · simp only [h1, h0, or_self, if_false]
            by_cases h3 : (env.process_command (advance c.event.state (x :: xs))).1 = 1
            · simp only [h3, if_true]
              obtain ⟨pre, last, post, e1, e2, e3⟩ := ih (set_recv_incomplete
                (after_command env c (.bytes (x :: xs))))
              refine ⟨read_effect env c.event.state (.bytes (x :: xs)) ::
                process_effect env (advance c.event.state (x :: xs)) :: pre,
                last, post, ?_, ?_, e3⟩
              · rw [e1]; simp [read_result_t.data]
              · intro e he
                simp only [List.mem_cons] at he
                rcases he with he | he | he
                · subst he; exact hin
                · subst he; trivial
                · exact e2 e he
            · simp only [h3, if_false]
              by_cases h4 : (env.process_command (advance c.event.state (x :: xs))).1 = 2
              · simp only [h4, if_true]
                refine ⟨[], read_effect env c.event.state (.bytes (x :: xs)),
                  [process_effect env (advance c.event.state (x :: xs))], ?_, by simp,
                  loop_exit.stopped c.event.state _ _ _ _ hpos ?_⟩
                · simp [result_t.config, read_result_t.data]
                · intro e he
                  simp only [List.mem_singleton] at he
                  subst he; trivial
              · simp only [h4, if_false]
                obtain ⟨pre, last, post, e1, e2, e3⟩ := ih (after_command env c (.bytes (x :: xs)))
                refine ⟨read_effect env c.event.state (.bytes (x :: xs)) ::
                process_effect env (advance c.event.state (x :: xs)) :: pre,
                last, post, ?_, ?_, e3⟩
                · rw [e1]; simp [read_result_t.data]
                · intro e he
                  simp only [List.mem_cons] at he
                  rcases he with he | he | he
                  · subst he; exact hin
                  · subst he; trivial
                  · exact e2 e he

theorem new_effects_of_append (c c' : config_t) (t : List effect_t)
    (h : c'.trace = c.trace ++ t) : new_effects c c' = t := by
  simp [new_effects, h]

/-! ## The claims -/

/-- C2: `fsm_do_transition` routes on the phase alone.  In phase connected or
recv-incomplete it is `fsm_socket_ready` on the same event, in phase send-incomplete
it is `fsm_socket_send_incomplete`, and for any other phase value it ends in the fatal
outcome with the configuration untouched (no handler ran, no effect was added). -/
theorem fsm_do_transition_routes (env : env_t) (reads : List read_result_t) (c : config_t) :
    ((c.event.state.state = state_t.fsm_socket_connected ∨
        c.event.state.state = state_t.fsm_socket_recv_incomplete) →
      fsm_do_transition env reads c = fsm_socket_ready env reads c) ∧
    (c.event.state.state = state_t.fsm_socket_send_incomplete →
      fsm_do_transition env reads c = fsm_socket_send_incomplete env reads c) ∧
    (∀ n, c.event.state.state = state_t.other n →
      fsm_do_transition env reads c = result_t.fatal c) := by
  refine ⟨?_, ?_, ?_⟩
  · rintro (h | h) <;> simp [fsm_do_transition, h]
  · intro h; simp [fsm_do_transition, h]
  · intro n h; simp [fsm_do_transition, h]

/-- C2, on concrete events: a connected connection is routed to `fsm_socket_ready`, one
in phase send-incomplete to `fsm_socket_send_incomplete`, and an out-of-range phase is
fatal. -/
theorem fsm_do_transition_routes_witness :
    fsm_do_transition sample_env [] fresh_config = fsm_socket_ready sample_env [] fresh_config ∧
    fsm_do_transition sample_env []
        { fresh_config with event := { fresh_config.event with state :=
            { fresh_state with state := state_t.fsm_socket_send_incomplete } } }
      = fsm_socket_send_incomplete sample_env []
        { fresh_config with event := { fresh_config.event with state :=
            { fresh_state with state := state_t.fsm_socket_send_incomplete } } } ∧
    fsm_do_transition sample_env []
        { fresh_config with event := { fresh_config.event with state :=
            { fresh_state with state := state_t.other 7 } } }
      = result_t.fatal
        { fresh_config with event := { fresh_config.event with state :=
            { fresh_state with state := state_t.other 7 } } } :=
  ⟨(fsm_do_transition_routes sample_env [] fresh_config).1 (Or.inl rfl),
   (fsm_do_transition_routes sample_env [] _).2.1 rfl,
   (fsm_do_transition_routes sample_env [] _).2.2 7 rfl⟩

/-- The effects after the last `read` of the drain loop are frees, teardown effects or
collaborator calls. -/
theorem loop_exit_post {last : effect_t} {post : List effect_t} {r : result_t}
    (h : loop_exit last post r) :
    last.is_read = true ∧ ∀ e ∈ post, e.is_read = false ∧ e.is_send_msg = false ∧
      e ≠ effect_t.alloc_malloc := by
  cases h with
  | would_block_keep => simp [effect_t.is_read]
  | would_block_free => simp [effect_t.is_read, effect_t.is_send_msg]
  | read_error => simp [effect_t.is_read]
  | peer_closed st cnt c hc =>
    refine ⟨rfl, ?_⟩
    intro e he
    simp only [fsm_destroy_effects, List.mem_append, List.mem_cons, List.mem_singleton,
      List.not_mem_nil, or_false] at he
    rcases he with (he | he) | he | he
    · split_ifs at he
      · simp only [List.mem_singleton] at he
        subst he; simp [effect_t.is_read, effect_t.is_send_msg]
      · simp at he
    · split_ifs at he
      · simp only [List.mem_cons, List.mem_singleton, List.not_mem_nil, or_false] at he
        rcases he with he | he | he <;> subst he <;> simp [effect_t.is_read, effect_t.is_send_msg]
      · simp at he
    · subst he; simp [effect_t.is_read, effect_t.is_send_msg]
    · subst he; simp [effect_t.is_read, effect_t.is_send_msg]
  | stopped st cnt r post c hr hpost =>
    refine ⟨rfl, ?_⟩
    intro e he
    have := hpost e he
    cases e <;> simp_all [effect_t.command_part, effect_t.is_read, effect_t.is_send_msg]

theorem drain_loop_send_msg_count (env : env_t) (reads : List read_result_t) (c : config_t) :
    (new_effects c (drain_loop env reads c).config).countP effect_t.is_send_msg = 0 ∧
    effect_t.alloc_malloc ∉ new_effects c (drain_loop env reads c).config := by
  obtain ⟨pre, last, post, h1, h2, h3⟩ := drain_loop_shape env reads c
  rw [List.append_assoc] at h1
  rw [new_effects_of_append _ _ _ h1]
  obtain ⟨hl, hp⟩ := loop_exit_post h3
  constructor
  · rw [List.countP_eq_zero]
    intro e he
    simp only [List.mem_append, List.mem_cons] at he
    rcases he with he | he | he
    · have := h2 e he
      cases e <;> simp_all [effect_t.inert, effect_t.is_send_msg]
    · subst he
      cases e <;> simp_all [effect_t.is_read, effect_t.is_send_msg]
    · simp [(hp e he).2.1]
  · intro he
    simp only [List.mem_append, List.mem_cons] at he
    rcases he with he | he | he
    · exact h2 _ he
    · rw [← he] at hl; simp [effect_t.is_read] at hl
    · exact (hp _ he).2.2 rfl

theorem fsm_socket_ready_readable (env : env_t) (reads : List read_result_t) (c : config_t)
    (hty : c.event.event_type = event_type_t.et_sock)
    (hop : c.event.op = event_op_t.eo_rdwr ∨ c.event.op = event_op_t.eo_read) :
    fsm_socket_ready env reads c = drain_loop env reads (acquire_buffer env c) := by
  simp only [fsm_socket_ready, hty, hop, if_true, acquire_buffer]

theorem acquire_buffer_trace (env : env_t) (c : config_t) :
    ∃ t, (acquire_buffer env c).trace = c.trace ++ t ∧
      (t = [] ∨ t = [effect_t.alloc_malloc]) := by
  unfold acquire_buffer
  split_ifs
  · exact ⟨[effect_t.alloc_malloc], rfl, Or.inr rfl⟩
  · exact ⟨[], by simp, Or.inl rfl⟩

theorem drain_loop_trace (env : env_t) (reads : List read_result_t) (c : config_t) :
    (drain_loop env reads c).config.trace
      = c.trace ++ new_effects c (drain_loop env reads c).config := by
  obtain ⟨pre, last, post, h1, -, -⟩ := drain_loop_shape env reads c
  rw [List.append_assoc] at h1
  rw [new_effects_of_append _ _ _ h1, h1]

theorem fsm_socket_ready_send_msg_count (env : env_t) (reads : List read_result_t)
    (c : config_t) :
    ∃ t, (fsm_socket_ready env reads c).config.trace = c.trace ++ t ∧
      t.countP effect_t.is_send_msg = 0 := by
  by_cases h1 : c.event.event_type = event_type_t.et_sock
  · by_cases h2 : c.event.op = event_op_t.eo_rdwr ∨ c.event.op = event_op_t.eo_read
    · obtain ⟨t0, ht0, hc0⟩ := acquire_buffer_trace env c
      have h := drain_loop_trace env reads (acquire_buffer env c)
      have hz := (drain_loop_send_msg_count env reads (acquire_buffer env c)).1
      refine ⟨t0 ++ new_effects (acquire_buffer env c)
        (drain_loop env reads (acquire_buffer env c)).config, ?_, ?_⟩
      · rw [fsm_socket_ready_readable env reads c h1 h2, h, ht0, List.append_assoc]
      · rw [List.countP_append, hz]
        rcases hc0 with rfl | rfl <;> simp [effect_t.is_send_msg]
    · exact ⟨[], by simp [fsm_socket_ready, h1, h2, result_t.config], rfl⟩
  · exact ⟨[], by simp [fsm_socket_ready, h1, result_t.config], rfl⟩

/-- C10: resumption after a partial send.  On a writable (write or read-write) socket
event `fsm_socket_send_incomplete` calls `send_msg_to_client` exactly once.  If the
phase is still send-incomplete afterwards it returns with the state exactly as the send
left it, the event untouched and no other effect (so no read).  Otherwise everything
that follows is `fsm_socket_ready` run on the state the send left, with the event's
operation rewritten to read. -/
theorem send_incomplete_resumes (env : env_t) (reads : List read_result_t) (c : config_t)
    (hty : c.event.event_type = event_type_t.et_sock)
    (hop : c.event.op = event_op_t.eo_rdwr ∨ c.event.op = event_op_t.eo_write) :
    ((env.send_msg_to_client c.event.state).state = state_t.fsm_socket_send_incomplete →
      fsm_socket_send_incomplete env reads c = result_t.returned
        { event := { c.event with state := env.send_msg_to_client c.event.state },
          trace := c.trace ++ [effect_t.send_msg_to_client c.event.state
            (env.send_msg_to_client c.event.state)] }) ∧
    ((env.send_msg_to_client c.event.state).state ≠ state_t.fsm_socket_send_incomplete →
      fsm_socket_send_incomplete env reads c = fsm_socket_ready env reads
        { event := { event_type := c.event.event_type, op := event_op_t.eo_read,
                     state := env.send_msg_to_client c.event.state },
          trace := c.trace ++ [effect_t.send_msg_to_client c.event.state
            (env.send_msg_to_client c.event.state)] }) ∧
    (new_effects c (fsm_socket_send_incomplete env reads c).config).countP
      effect_t.is_send_msg = 1 := by
  have hA : (env.send_msg_to_client c.event.state).state = state_t.fsm_socket_send_incomplete →
      fsm_socket_send_incomplete env reads c = result_t.returned
        { event := { c.event with state := env.send_msg_to_client c.event.state },
          trace := c.trace ++ [effect_t.send_msg_to_client c.event.state
            (env.send_msg_to_client c.event.state)] } := by
    intro h
    simp [fsm_socket_send_incomplete, hty, hop, h]
  have hB : (env.send_msg_to_client c.event.state).state ≠ state_t.fsm_socket_send_incomplete →
      fsm_socket_send_incomplete env reads c = fsm_socket_ready env reads
        { event := { event_type := c.event.event_type, op := event_op_t.eo_read,
                     state := env.send_msg_to_client c.event.state },
          trace := c.trace ++ [effect_t.send_msg_to_client c.event.state
            (env.send_msg_to_client c.event.state)] } := by
    intro h
    simp [fsm_socket_send_incomplete, hty, hop, h]
  refine ⟨hA, hB, ?_⟩
  by_cases h : (env.send_msg_to_client c.event.state).state = state_t.fsm_socket_send_incomplete
  · rw [hA h, new_effects_of_append c _ [_] rfl]
    rfl
  · rw [hB h]
    obtain ⟨t, ht, hz⟩ := fsm_socket_ready_send_msg_count env reads
      { event := { event_type := c.event.event_type, op := event_op_t.eo_read,
                   state := env.send_msg_to_client c.event.state },
        trace := c.trace ++ [effect_t.send_msg_to_client c.event.state
          (env.send_msg_to_client c.event.state)] }
    rw [List.append_assoc] at ht
    rw [new_effects_of_append c _ _ ht, List.countP_append, hz]
    rfl

/-- C10, on concrete events: a send that stays incomplete returns at once; a send that
completes is followed by the read pass, which here picks up the two bytes that arrived
meanwhile and hands the processor all four accumulated bytes. -/
theorem send_incomplete_resumes_witness :
    fsm_socket_send_incomplete slow_env [.bytes [81, 10]] sending_config
      = result_t.returned
        { event := { event_type := event_type_t.et_sock, op := event_op_t.eo_write,
                     state := slow_env.send_msg_to_client sending_config.event.state },
          trace := [effect_t.send_msg_to_client sending_config.event.state
            (slow_env.send_msg_to_client sending_config.event.state)] } ∧
    fsm_socket_send_incomplete sample_env [.bytes [81, 10]] sending_config
      = fsm_socket_ready sample_env [.bytes [81, 10]]
        { event := { event_type := event_type_t.et_sock, op := event_op_t.eo_read,
                     state := sample_env.send_msg_to_client sending_config.event.state },
          trace := [effect_t.send_msg_to_client sending_config.event.state
            (sample_env.send_msg_to_client sending_config.event.state)] } ∧
    command_views (fsm_socket_send_incomplete sample_env [.bytes [81, 10]]
      sending_config).config.trace = [[80, 10, 81, 10]] :=
  ⟨(send_incomplete_resumes slow_env _ sending_config rfl (Or.inr rfl)).1 (by decide),
   (send_incomplete_resumes sample_env _ sending_config rfl (Or.inr rfl)).2.1 (by decide),
   by decide⟩

/-- C8: a malformed command.  At a positive read after which the processor answers
error (`-1`), the iteration calls `send_err_to_client` exactly once: its effects are the
read, the processor call and the error response, none of them a teardown effect.  If
the phase after the error response is not send-incomplete, the state is reset (phase
connected, both cursors zero, buffer kept) and the loop goes on with the next read; if
it is send-incomplete the loop stops there, with the state as the error response left
it.  When the processor answers complete (`0`) the same happens without any error
response. -/
theorem malformed_command_step (env : env_t) (x : Nat) (xs : List Nat)
    (rest : List read_result_t) (c : config_t) :
    ((env.process_command (advance c.event.state (x :: xs))).1 = -1 →
      (after_send_err env (after_command env c (.bytes (x :: xs)))).trace
        = c.trace ++ [read_effect env c.event.state (.bytes (x :: xs)),
            process_effect env (advance c.event.state (x :: xs)),
            send_err_effect env (env.process_command (advance c.event.state (x :: xs))).2] ∧
      ((after_send_err env (after_command env c (.bytes (x :: xs)))).event.state.state
          ≠ state_t.fsm_socket_send_incomplete →
        drain_loop env (.bytes (x :: xs) :: rest) c
          = drain_loop env rest
              (reset_connected (after_send_err env (after_command env c (.bytes (x :: xs)))))) ∧
      ((after_send_err env (after_command env c (.bytes (x :: xs)))).event.state.state
          = state_t.fsm_socket_send_incomplete →
        drain_loop env (.bytes (x :: xs) :: rest) c
          = result_t.returned (after_send_err env (after_command env c (.bytes (x :: xs)))))) ∧
    ((env.process_command (advance c.event.state (x :: xs))).1 = 0 →
      (after_command env c (.bytes (x :: xs))).trace
        = c.trace ++ [read_effect env c.event.state (.bytes (x :: xs)),
            process_effect env (advance c.event.state (x :: xs))] ∧
      ((after_command env c (.bytes (x :: xs))).event.state.state
          ≠ state_t.fsm_socket_send_incomplete →
        drain_loop env (.bytes (x :: xs) :: rest) c
          = drain_loop env rest (reset_connected (after_command env c (.bytes (x :: xs))))) ∧
      ((after_command env c (.bytes (x :: xs))).event.state.state
          = state_t.fsm_socket_send_incomplete →
        drain_loop env (.bytes (x :: xs) :: rest) c
          = result_t.returned (after_command env c (.bytes (x :: xs))))) ∧
    (∀ c' : config_t,
      (reset_connected c').event.state.state = state_t.fsm_socket_connected ∧
      (reset_connected c').event.state.nbuf = 0 ∧
      (reset_connected c').event.state.snbuf = 0 ∧
      (reset_connected c').event.state.buf = c'.event.state.buf ∧
      (reset_connected c').trace = c'.trace) := by
  refine ⟨?_, ?_, fun c' => ⟨rfl, rfl, rfl, rfl, rfl⟩⟩
  · intro h
    refine ⟨by simp [read_result_t.data], ?_, ?_⟩
    · intro h2
      rw [drain_loop_data]
      simp only [h, true_or, if_true]
      rw [if_pos h2]
    · intro h2
      rw [drain_loop_data]
      simp only [h, true_or, if_true]
      rw [if_neg (not_not.mpr h2)]
  · intro h
    refine ⟨by simp [read_result_t.data], ?_, ?_⟩
    · intro h2
      rw [drain_loop_data]
      simp only [h, or_true, if_true, show ((0 : Int) = -1) = False by simp, if_false]
      rw [if_pos h2]
    · intro h2
      rw [drain_loop_data]
      simp only [h, or_true, if_true, show ((0 : Int) = -1) = False by simp, if_false]
      rw [if_neg (not_not.mpr h2)]

/-- C8, on concrete runs: the malformed line `!\n` gets one error response; with sends
that complete at once the connection ends clean and connected after the next read finds
nothing, with sends that stay pending the call stops in phase send-incomplete without a
second read; the well-formed line `P\n` gets no error response. -/
theorem malformed_command_step_witness :
    (drain_loop sample_env [.bytes [33, 10], .error EAGAIN] (acquire_buffer sample_env fresh_config)
        = drain_loop sample_env [.error EAGAIN]
            (reset_connected (after_send_err sample_env
              (after_command sample_env (acquire_buffer sample_env fresh_config)
                (.bytes [33, 10]))))) ∧
    (drain_loop slow_env [.bytes [33, 10], .error EAGAIN] (acquire_buffer slow_env fresh_config)
        = result_t.returned (after_send_err slow_env
            (after_command slow_env (acquire_buffer slow_env fresh_config) (.bytes [33, 10])))) ∧
    ((fsm_socket_ready sample_env [.bytes [33, 10], .error EAGAIN]
        fresh_config).config.trace.countP effect_t.is_send_err = 1) ∧
    ((fsm_socket_ready slow_env [.bytes [33, 10], .error EAGAIN]
        fresh_config).config.trace.countP effect_t.is_read = 1) ∧
    ((fsm_socket_ready sample_env [.bytes [80, 10], .error EAGAIN]
        fresh_config).config.trace.countP effect_t.is_send_err = 0) :=
  ⟨((malformed_command_step sample_env 33 [10] [.error EAGAIN]
      (acquire_buffer sample_env fresh_config)).1 (by decide)).2.1 (by decide),
   ((malformed_command_step slow_env 33 [10] [.error EAGAIN]
      (acquire_buffer slow_env fresh_config)).1 (by decide)).2.2 (by decide),
   by decide, by decide, by decide⟩

/-- The effects of a call of `fsm_socket_ready` on a readable socket event: possibly the
buffer acquisition, then iterations that go round again, then the last read and what
follows it. -/
theorem fsm_socket_ready_shape (env : env_t) (reads : List read_result_t) (c : config_t)
    (hty : c.event.event_type = event_type_t.et_sock)
    (hop : c.event.op = event_op_t.eo_rdwr ∨ c.event.op = event_op_t.eo_read) :
    ∃ t0 pre last post,
      new_effects c (fsm_socket_ready env reads c).config = t0 ++ pre ++ last :: post ∧
      (t0 = [] ∨ t0 = [effect_t.alloc_malloc]) ∧
      (∀ e ∈ pre, e.inert) ∧ loop_exit last post (fsm_socket_ready env reads c) := by
  rw [fsm_socket_ready_readable env reads c hty hop]
  obtain ⟨t0, ht0, hc0⟩ := acquire_buffer_trace env c
  obtain ⟨pre, last, post, h1, h2, h3⟩ := drain_loop_shape env reads (acquire_buffer env c)
  refine ⟨t0, pre, last, post, ?_, hc0, h2, h3⟩
  apply new_effects_of_append
  rw [h1, ht0]
  simp [List.append_assoc]

theorem inert_not_teardown (e : effect_t) (h : e.inert) :
    e.is_teardown = false ∧ e.is_buf_release = false := by
  cases e <;> simp_all [effect_t.inert, effect_t.is_teardown, effect_t.is_buf_release]

/-- C6: orderly peer shutdown.  When a call of `fsm_socket_ready` on a readable socket
event performs a read that returns zero bytes, on a connection that at that moment has a
set descriptor (`source ≠ -1`) and holds a buffer, the call destroys the connection and
stops: its effects end with that read followed by the release of the held buffer, the
closing message, the deregistration of the descriptor, its `close`, the removal from the
live set and the release of the state, and nothing else (no read, no processor call).
In the whole call each of these happens exactly once, and no other buffer release or
teardown effect occurs. -/
theorem peer_shutdown_teardown (env : env_t) (reads : List read_result_t) (c : config_t)
    (st : fsm_state_t) (cnt : Int) (b : List Nat)
    (hty : c.event.event_type = event_type_t.et_sock)
    (hop : c.event.op = event_op_t.eo_rdwr ∨ c.event.op = event_op_t.eo_read)
    (hz : effect_t.read st cnt (.bytes []) ∈
      new_effects c (fsm_socket_ready env reads c).config)
    (hsrc : st.source ≠ -1) (hbuf : st.buf = some b) :
    ∃ c' pre, fsm_socket_ready env reads c = result_t.destroyed c' ∧
      new_effects c c' = pre ++ [effect_t.read st cnt (.bytes []),
        effect_t.alloc_free_buf (some b), effect_t.printf_closing st.source,
        effect_t.queue_forget_resource st.source, effect_t.close st.source,
        effect_t.live_fsms_remove, effect_t.alloc_free_state] ∧
      (∀ e ∈ pre, e.is_teardown = false ∧ e.is_buf_release = false) ∧
      (new_effects c c').count (effect_t.queue_forget_resource st.source) = 1 ∧
      (new_effects c c').count (effect_t.close st.source) = 1 ∧
      (new_effects c c').count effect_t.live_fsms_remove = 1 ∧
      (new_effects c c').count effect_t.alloc_free_state = 1 ∧
      (new_effects c c').countP effect_t.is_buf_release = 1 ∧
      (new_effects c c').countP effect_t.is_teardown = 5 := by
  obtain ⟨t0, pre, last, post, h1, h0, h2, h3⟩ := fsm_socket_ready_shape env reads c hty hop
  have hpre : ∀ e ∈ t0 ++ pre, e.is_teardown = false ∧ e.is_buf_release = false := by
    intro e he
    rw [List.mem_append] at he
    rcases he with he | he
    · rcases h0 with rfl | rfl
      · simp at he
      · simp only [List.mem_singleton] at he
        subst he; exact ⟨rfl, rfl⟩
    · exact inert_not_teardown e (h2 e he)
  rw [h1] at hz
  have hlast : last = effect_t.read st cnt (.bytes []) := by
    simp only [List.mem_append, List.mem_cons] at hz
    rcases hz with (hz | hz) | hz | hz
    · rcases h0 with rfl | rfl <;> simp at hz
    · have := h2 _ hz
      simp [effect_t.inert, read_result_t.ret] at this
    · exact hz.symm
    · have := ((loop_exit_post h3).2 _ hz).1
      simp [effect_t.is_read] at this
  subst hlast
  generalize hr : fsm_socket_ready env reads c = r at h1 h3
  cases h3 with
  | stopped _ _ _ _ c' hpos _ => simp [read_result_t.ret] at hpos
  | peer_closed _ _ c' hc =>
    have hpost : fsm_destroy_effects st = [effect_t.alloc_free_buf (some b),
        effect_t.printf_closing st.source, effect_t.queue_forget_resource st.source,
        effect_t.close st.source, effect_t.live_fsms_remove, effect_t.alloc_free_state] := by
      simp [fsm_destroy_effects, hbuf, hsrc]
    rw [hpost] at h1
    simp only [result_t.config] at h1
    have hcount : ∀ q : effect_t → Bool, (∀ e ∈ t0 ++ pre, q e = false) →
        (t0 ++ pre).countP q = 0 := by
      intro q hq
      rw [List.countP_eq_zero]
      intro e he
      simp [hq e he]
    have hnot : ∀ a : effect_t, a.is_teardown = true → (t0 ++ pre).count a = 0 := by
      intro a ha
      apply List.count_eq_zero_of_not_mem
      intro hm
      rw [(hpre a hm).1] at ha
      exact Bool.false_ne_true ha
    refine ⟨c', t0 ++ pre, rfl, h1, hpre, ?_, ?_, ?_, ?_, ?_, ?_⟩
    · rw [h1, List.count_append, hnot (effect_t.queue_forget_resource st.source) rfl]
      simp [List.count_cons]
    · rw [h1, List.count_append, hnot (effect_t.close st.source) rfl]
      simp [List.count_cons]
    · rw [h1, List.count_append, hnot (effect_t.live_fsms_remove) rfl]
      simp [List.count_cons]
    · rw [h1, List.count_append, hnot (effect_t.alloc_free_state) rfl]
      simp [List.count_cons]
    · rw [h1, List.countP_append, hcount _ (fun e he => (hpre e he).2)]
      rfl
    · rw [h1, List.countP_append, hcount _ (fun e he => (hpre e he).1)]
      rfl

/-- C6, on a concrete run: the peer sends `A` and closes.  The second read returns zero
on the connection in phase recv-incomplete; the call ends destroyed, after one
processor call, with each teardown effect exactly once. -/
theorem peer_shutdown_teardown_witness :
    ∃ c' pre, fsm_socket_ready sample_env [.bytes [65], .bytes []] fresh_config
        = result_t.destroyed c' ∧
      new_effects fresh_config c' = pre ++ [effect_t.read
          { state := state_t.fsm_socket_recv_incomplete, buf := some [65, 0, 0, 0, 0, 0, 0, 0],
            nbuf := 1, snbuf := 0, source := 5 } 7 (.bytes []),
        effect_t.alloc_free_buf (some [65, 0, 0, 0, 0, 0, 0, 0]), effect_t.printf_closing 5,
        effect_t.queue_forget_resource 5, effect_t.close 5,
        effect_t.live_fsms_remove, effect_t.alloc_free_state] ∧
      (∀ e ∈ pre, e.is_teardown = false ∧ e.is_buf_release = false) ∧
      (new_effects fresh_config c').count (effect_t.queue_forget_resource 5) = 1 ∧
      (new_effects fresh_config c').count (effect_t.close 5) = 1 ∧
      (new_effects fresh_config c').count effect_t.live_fsms_remove = 1 ∧
      (new_effects fresh_config c').count effect_t.alloc_free_state = 1 ∧
      (new_effects fresh_config c').countP effect_t.is_buf_release = 1 ∧
      (new_effects fresh_config c').countP effect_t.is_teardown = 5 :=
  peer_shutdown_teardown sample_env [.bytes [65], .bytes []] fresh_config
    { state := state_t.fsm_socket_recv_incomplete, buf := some [65, 0, 0, 0, 0, 0, 0, 0],
      nbuf := 1, snbuf := 0, source := 5 } 7 [65, 0, 0, 0, 0, 0, 0, 0]
    rfl (Or.inr rfl) (by decide) (by decide) rfl

/-- A read that failed can only be the last read of the call. -/
theorem failed_read_is_last (env : env_t) (reads : List read_result_t) (c : config_t)
    (hty : c.event.event_type = event_type_t.et_sock)
    (hop : c.event.op = event_op_t.eo_rdwr ∨ c.event.op = event_op_t.eo_read)
    (st : fsm_state_t) (cnt : Int) (e : Int)
    (hm : effect_t.read st cnt (.error e) ∈
      new_effects c (fsm_socket_ready env reads c).config) :
    ∃ pre post, new_effects c (fsm_socket_ready env reads c).config
        = pre ++ effect_t.read st cnt (.error e) :: post ∧
      loop_exit (effect_t.read st cnt (.error e)) post (fsm_socket_ready env reads c) := by
  obtain ⟨t0, pre, last, post, h1, h0, h2, h3⟩ := fsm_socket_ready_shape env reads c hty hop
  rw [h1] at hm
  have hlast : last = effect_t.read st cnt (.error e) := by
    simp only [List.mem_append, List.mem_cons] at hm
    rcases hm with (hm | hm) | hm | hm
    · rcases h0 with rfl | rfl <;> simp at hm
    · have := h2 _ hm
      simp [effect_t.inert, read_result_t.ret] at this
    · exact hm.symm
    · have := ((loop_exit_post h3).2 _ hm).1
      simp [effect_t.is_read] at this
  subst hlast
  exact ⟨t0 ++ pre, post, h1, h3⟩

/-- C9: fatal exactly on a read error other than would-block.  A call of
`fsm_socket_ready` on a readable socket event ends in the fatal outcome if and only if
one of its reads failed with an `errno` other than `EAGAIN`/`EWOULDBLOCK`.  A read that
failed with `EAGAIN`/`EWOULDBLOCK` makes the call return normally, and after that read
the call does nothing but, at most, release the buffer: no error response follows. -/
theorem fatal_iff_read_error (env : env_t) (reads : List read_result_t) (c : config_t)
    (hty : c.event.event_type = event_type_t.et_sock)
    (hop : c.event.op = event_op_t.eo_rdwr ∨ c.event.op = event_op_t.eo_read) :
    ((∃ c', fsm_socket_ready env reads c = result_t.fatal c') ↔
      ∃ st cnt e, ¬ (e = EAGAIN ∨ e = EWOULDBLOCK) ∧
        effect_t.read st cnt (.error e) ∈
          new_effects c (fsm_socket_ready env reads c).config) ∧
    (∀ st cnt e, (e = EAGAIN ∨ e = EWOULDBLOCK) →
      effect_t.read st cnt (.error e) ∈
        new_effects c (fsm_socket_ready env reads c).config →
      ∃ c' pre post, fsm_socket_ready env reads c = result_t.returned c' ∧
        new_effects c c' = pre ++ effect_t.read st cnt (.error e) :: post ∧
        (post = [] ∨ post = [effect_t.alloc_free_buf st.buf])) := by
  refine ⟨⟨?_, ?_⟩, ?_⟩
  · rintro ⟨c', hc'⟩
    obtain ⟨t0, pre, last, post, h1, h0, h2, h3⟩ := fsm_socket_ready_shape env reads c hty hop
    rw [hc'] at h3
    cases h3 with
    | read_error st cnt e _ he =>
      refine ⟨st, cnt, e, he, ?_⟩
      rw [h1]; simp
  · rintro ⟨st, cnt, e, he, hm⟩
    obtain ⟨pre, post, h1, h3⟩ := failed_read_is_last env reads c hty hop st cnt e hm
    generalize fsm_socket_ready env reads c = r at h3
    cases h3 with
    | would_block_keep _ _ _ _ h => exact absurd h he
    | would_block_free _ _ _ _ h => exact absurd h he
    | read_error _ _ _ c' => exact ⟨c', rfl⟩
    | stopped _ _ _ _ _ hpos => simp [read_result_t.ret] at hpos
  · intro st cnt e he hm
    obtain ⟨pre, post, h1, h3⟩ := failed_read_is_last env reads c hty hop st cnt e hm
    generalize hr : fsm_socket_ready env reads c = r at h1 h3
    cases h3 with
    | would_block_keep _ _ _ c' => exact ⟨c', pre, [], rfl, h1, Or.inl rfl⟩
    | would_block_free _ _ _ c' => exact ⟨c', pre, _, rfl, h1, Or.inr rfl⟩
    | read_error _ _ _ _ h => exact absurd he h
    | stopped _ _ _ _ _ hpos => simp [read_result_t.ret] at hpos

/-- C9, on concrete runs: a read failing with `ECONNRESET` (104) after one processed
chunk is fatal; the same run ending in `EAGAIN` returns. -/
theorem fatal_iff_read_error_witness :
    (∃ c', fsm_socket_ready sample_env [.bytes [65], .error 104] fresh_config
      = result_t.fatal c') ∧
    (∃ c' pre post, fsm_socket_ready sample_env [.bytes [65], .error 11] fresh_config
        = result_t.returned c' ∧
      new_effects fresh_config c'
        = pre ++ effect_t.read fresh_state_after_A 7 (.error 11) :: post ∧
      (post = [] ∨ post = [effect_t.alloc_free_buf fresh_state_after_A.buf])) :=
  ⟨(fatal_iff_read_error sample_env [.bytes [65], .error 104] fresh_config rfl
      (Or.inr rfl)).1.2 ⟨fresh_state_after_A, 7, 104, by decide, by decide⟩,
   (fatal_iff_read_error sample_env [.bytes [65], .error 11] fresh_config rfl
      (Or.inr rfl)).2 fresh_state_after_A 7 11 (by decide) (by decide)⟩

@[simp] theorem read_offsets_nil : read_offsets [] = [] := rfl

@[simp] theorem read_offsets_append (s t : List effect_t) :
    read_offsets (s ++ t) = read_offsets s ++ read_offsets t := by
  simp [read_offsets, List.filterMap_append]

@[simp] theorem command_lens_nil : command_lens [] = [] := rfl

@[simp] theorem command_lens_append (s t : List effect_t) :
    command_lens (s ++ t) = command_lens s ++ command_lens t := by
  simp [command_lens, List.filterMap_append]

theorem accumulated_advance (st : fsm_state_t) (b : List Nat) (data : List Nat)
    (hb : st.buf = some b) (hn : st.nbuf ≤ b.length) :
    accumulated (advance st data) = accumulated st ++ data := by
  simp only [accumulated, advance, hb, Option.map_some', Option.getD_some, buf_write]
  rw [List.append_assoc, List.take_append_eq_append_take]
  have h1 : (List.take st.nbuf b).length = st.nbuf := by simp [hn]
  rw [h1, List.take_of_length_le (by simp [h1]), Nat.add_sub_cancel_left,
    List.take_append_eq_append_take]
  simp

theorem would_block_recv (env : env_t) (e : Int) (rest : List read_result_t) (c : config_t)
    (he : e = EAGAIN ∨ e = EWOULDBLOCK)
    (hp : c.event.state.state = state_t.fsm_socket_recv_incomplete) :
    drain_loop env (.error e :: rest) c = result_t.returned (after_read env c (.error e)) := by
  rw [drain_loop_would_block env e rest c he]
  simp [on_would_block, hp]

theorem would_block_other (env : env_t) (e : Int) (rest : List read_result_t) (c : config_t)
    (he : e = EAGAIN ∨ e = EWOULDBLOCK)
    (hp : c.event.state.state ≠ state_t.fsm_socket_recv_incomplete) :
    drain_loop env (.error e :: rest) c
      = result_t.returned (return_to_fsm_socket_connected (after_read env c (.error e))) := by
  rw [drain_loop_would_block env e rest c he]
  simp [on_would_block, hp]

@[simp] theorem command_views_nil : command_views [] = [] := rfl

@[simp] theorem command_views_append (s t : List effect_t) :
    command_views (s ++ t) = command_views s ++ command_views t := by
  simp [command_views, List.filterMap_append]

/-- C4: a command spanning two events.  Start from a clean connected state.  A first
readable event reads the non-empty chunk `A` and then would-block; the processor, seeing
`A`, asks for more and leaves buffer and cursor alone.  The call returns in phase
recv-incomplete with the buffer present, holding `A`, and the cursor at `|A|`; one
buffer was acquired.  A second readable event reads the non-empty chunk `B` and then
would-block: no buffer is acquired, the read is placed at offset `|A|`, the processor
sees `A ++ B` and answers complete (not leaving a send pending); the call returns in
phase connected with cursor zero and no buffer.  Over both calls one buffer was
acquired and one released. -/
theorem command_spanning_two_events (env : env_t) (c : config_t) (s0 : fsm_state_t)
    (x : Nat) (xs : List Nat) (y : Nat) (ys : List Nat) (e1 e2 : Int)
    (op2 : event_op_t)
    (hty : c.event.event_type = event_type_t.et_sock)
    (hop : c.event.op = event_op_t.eo_rdwr ∨ c.event.op = event_op_t.eo_read)
    (hop2 : op2 = event_op_t.eo_rdwr ∨ op2 = event_op_t.eo_read)
    (hst : c.event.state = fsm_init_state s0)
    (he1 : e1 = EAGAIN ∨ e1 = EWOULDBLOCK) (he2 : e2 = EAGAIN ∨ e2 = EWOULDBLOCK)
    (hA : ∀ s, s.state = state_t.fsm_socket_connected → accumulated s = x :: xs →
      (env.process_command s).1 = 1 ∧ (env.process_command s).2.buf = s.buf ∧
        (env.process_command s).2.nbuf = s.nbuf)
    (hAB : ∀ s, s.state = state_t.fsm_socket_recv_incomplete →
      accumulated s = (x :: xs) ++ (y :: ys) →
      (env.process_command s).1 = 0 ∧
        (env.process_command s).2.state ≠ state_t.fsm_socket_send_incomplete ∧
        (env.process_command s).2.buf = s.buf) :
    ∃ c1 c2,
      fsm_socket_ready env [.bytes (x :: xs), .error e1] c = result_t.returned c1 ∧
      c1.event.state.state = state_t.fsm_socket_recv_incomplete ∧
      c1.event.state.buf ≠ none ∧
      c1.event.state.nbuf = (x :: xs).length ∧
      accumulated c1.event.state = x :: xs ∧
      (new_effects c c1).count effect_t.alloc_malloc = 1 ∧
      fsm_socket_ready env [.bytes (y :: ys), .error e2]
          (next_event c1 event_type_t.et_sock op2) = result_t.returned c2 ∧
      (new_effects c1 c2).count effect_t.alloc_malloc = 0 ∧
      read_offsets (new_effects c1 c2) = [(x :: xs).length, 0] ∧
      command_views (new_effects c1 c2) = [(x :: xs) ++ (y :: ys)] ∧
      c2.event.state.state = state_t.fsm_socket_connected ∧
      c2.event.state.nbuf = 0 ∧
      c2.event.state.buf = none ∧
      (new_effects c c2).count effect_t.alloc_malloc = 1 ∧
      (new_effects c c2).countP effect_t.is_buf_release = 1 := by
  -- the first event
  have hbuf0 : c.event.state.buf = none := by rw [hst]; rfl
  have hcA : acquire_buffer env c =
      { event := { c.event with state :=
          { c.event.state with buf := some (List.replicate env.IO_BUFFER_SIZE 0), nbuf := 0 } },
        trace := c.trace ++ [effect_t.alloc_malloc] } := by
    simp [acquire_buffer, hbuf0]
  have haccA : accumulated (advance (acquire_buffer env c).event.state (x :: xs)) = x :: xs := by
    rw [accumulated_advance _ (List.replicate env.IO_BUFFER_SIZE 0) _ (by rw [hcA]) (by rw [hcA]; simp)]
    rw [hcA]; simp [accumulated]
  obtain ⟨hA1, hA2, hA3⟩ := hA _ (by rw [hcA, hst]; rfl) haccA
  have hr1 : fsm_socket_ready env [.bytes (x :: xs), .error e1] c = result_t.returned
      (after_read env (set_recv_incomplete
        (after_command env (acquire_buffer env c) (.bytes (x :: xs)))) (.error e1)) := by
    rw [fsm_socket_ready_readable env _ c hty hop, drain_loop_data]
    simp only [hA1, show ¬ ((1 : Int) = -1 ∨ (1 : Int) = 0) by decide, if_false, if_true]
    exact would_block_recv env e1 [] _ he1 rfl
  have hsA_buf : (advance (acquire_buffer env c).event.state (x :: xs)).buf
      = some (buf_write (List.replicate env.IO_BUFFER_SIZE 0) 0 (x :: xs)) := by
    rw [hcA]; rfl
  have hsA_nbuf : (advance (acquire_buffer env c).event.state (x :: xs)).nbuf
      = (x :: xs).length := by
    rw [hcA]; simp [advance]
  obtain ⟨c1, hc1⟩ : ∃ c1, c1 = after_read env (set_recv_incomplete
      (after_command env (acquire_buffer env c) (.bytes (x :: xs)))) (.error e1) := ⟨_, rfl⟩
  have h1state : c1.event.state.state = state_t.fsm_socket_recv_incomplete := by rw [hc1]; rfl
  have h1buf : c1.event.state.buf
      = some (buf_write (List.replicate env.IO_BUFFER_SIZE 0) 0 (x :: xs)) := by
    rw [hc1, ← hsA_buf, ← hA2]; rfl
  have h1nbuf : c1.event.state.nbuf = (x :: xs).length := by
    rw [hc1, ← hsA_nbuf, ← hA3]; rfl
  have h1acc : accumulated c1.event.state = x :: xs := by
    rw [← haccA]
    simp only [accumulated, h1buf, h1nbuf, hsA_buf, hsA_nbuf]
  have h1trace : c1.trace = c.trace ++ [effect_t.alloc_malloc,
      read_effect env (acquire_buffer env c).event.state (.bytes (x :: xs)),
      process_effect env (advance (acquire_buffer env c).event.state (x :: xs)),
      read_effect env (set_recv_incomplete
        (after_command env (acquire_buffer env c) (.bytes (x :: xs)))).event.state
        (.error e1)] := by
    rw [hc1]
    simp [hcA, read_result_t.data]
  -- the second event
  have hcN : acquire_buffer env (next_event c1 event_type_t.et_sock op2)
      = next_event c1 event_type_t.et_sock op2 := by
    simp [acquire_buffer, next_event, h1buf]
  have haccAB : accumulated (advance c1.event.state (y :: ys)) = (x :: xs) ++ (y :: ys) := by
    rw [accumulated_advance _ _ _ h1buf (by rw [h1nbuf]; simp [buf_write]), h1acc]
  obtain ⟨hB1, hB2, hB3⟩ := hAB (advance c1.event.state (y :: ys)) h1state haccAB
  obtain ⟨c2, hc2⟩ : ∃ c2, c2 = return_to_fsm_socket_connected (after_read env
      (reset_connected (after_command env (next_event c1 event_type_t.et_sock op2)
        (.bytes (y :: ys)))) (.error e2)) := ⟨_, rfl⟩
  have hr2 : fsm_socket_ready env [.bytes (y :: ys), .error e2]
      (next_event c1 event_type_t.et_sock op2) = result_t.returned c2 := by
    rw [fsm_socket_ready_readable env _ _ rfl hop2, hcN, drain_loop_data]
    have hB1' : (env.process_command
        (advance (next_event c1 event_type_t.et_sock op2).event.state (y :: ys))).1 = 0 := hB1
    simp only [hB1', or_true, if_true, show ((0 : Int) = -1) = False by simp, if_false]
    rw [if_pos (by exact hB2), hc2]
    exact would_block_other env e2 [] _ he2 (by simp [reset_connected])
  have h2trace : c2.trace = c1.trace ++ [
      read_effect env c1.event.state (.bytes (y :: ys)),
      process_effect env (advance c1.event.state (y :: ys)),
      read_effect env (reset_connected (after_command env
        (next_event c1 event_type_t.et_sock op2) (.bytes (y :: ys)))).event.state (.error e2),
      effect_t.alloc_free_buf (some (buf_write
        (buf_write (List.replicate env.IO_BUFFER_SIZE 0) 0 (x :: xs)) c1.event.state.nbuf
        (y :: ys)))] := by
    rw [hc2]
    have : (env.process_command (advance c1.event.state (y :: ys))).2.buf = some (buf_write
        (buf_write (List.replicate env.IO_BUFFER_SIZE 0) 0 (x :: xs)) c1.event.state.nbuf
        (y :: ys)) := by
      rw [hB3]; simp [advance, h1buf]
    simp [return_to_fsm_socket_connected, next_event, read_result_t.data, reset_connected, this]
  have hn1 := new_effects_of_append c c1 _ h1trace
  have hn2 := new_effects_of_append c1 c2 _ h2trace
  have hn12 := new_effects_of_append c c2 _
    (by rw [h2trace, h1trace, List.append_assoc] : c2.trace = c.trace ++ _)
  refine ⟨c1, c2, by rw [hr1, hc1], h1state, by simp [h1buf], h1nbuf, h1acc, ?_, hr2,
    ?_, ?_, ?_, by rw [hc2]; rfl, by rw [hc2]; rfl, by rw [hc2]; rfl, ?_, ?_⟩
  · rw [hn1]; simp [List.count_cons, read_effect, process_effect]
  · rw [hn2]; simp [List.count_cons, read_effect, process_effect]
  · rw [hn2]; simp [read_offsets, read_effect, process_effect, h1nbuf, reset_connected]
  · rw [hn2]; simp [command_views, read_effect, process_effect, haccAB]
  · rw [hn12]; simp [List.count_cons, read_effect, process_effect]
  · rw [hn12]; simp [List.countP_cons, read_effect, process_effect, effect_t.is_buf_release]

/-- C4, on the run of the spec: `ABC` arrives, later `DEF` and a newline.  After the
first event the connection is in phase recv-incomplete holding `ABC`; the second event
appends at offset 3, the processor sees all seven bytes, and the connection ends clean
and connected with its one buffer released once. -/
theorem command_spanning_two_events_witness :
    ∃ c1 c2,
      fsm_socket_ready sample_env [.bytes [65, 66, 67], .error 11] fresh_config
        = result_t.returned c1 ∧
      c1.event.state.state = state_t.fsm_socket_recv_incomplete ∧
      c1.event.state.buf ≠ none ∧
      c1.event.state.nbuf = 3 ∧
      accumulated c1.event.state = [65, 66, 67] ∧
      (new_effects fresh_config c1).count effect_t.alloc_malloc = 1 ∧
      fsm_socket_ready sample_env [.bytes [68, 69, 70, 10], .error 11]
          (next_event c1 event_type_t.et_sock event_op_t.eo_read) = result_t.returned c2 ∧
      (new_effects c1 c2).count effect_t.alloc_malloc = 0 ∧
      read_offsets (new_effects c1 c2) = [3, 0] ∧
      command_views (new_effects c1 c2) = [[65, 66, 67, 68, 69, 70, 10]] ∧
      c2.event.state.state = state_t.fsm_socket_connected ∧
      c2.event.state.nbuf = 0 ∧
      c2.event.state.buf = none ∧
      (new_effects fresh_config c2).count effect_t.alloc_malloc = 1 ∧
      (new_effects fresh_config c2).countP effect_t.is_buf_release = 1 :=
  command_spanning_two_events sample_env fresh_config
    { state := state_t.other 0, buf := none, nbuf := 7, snbuf := 7, source := 5 }
    65 [66, 67] 68 [69, 70, 10] 11 11 event_op_t.eo_read rfl (Or.inr rfl) (Or.inr rfl) rfl
    (by decide) (by decide)
    (fun s _ h => by simp [sample_env, line_processor, h])
    (fun s hs h => by simp [sample_env, line_processor, h, hs])

theorem settled_init (s : fsm_state_t) : settled (fsm_init_state s) := by
  constructor
  · intro _; rfl
  · intro h; simp [fsm_init_state] at h

theorem settled_sending (st : fsm_state_t)
    (h : st.state = state_t.fsm_socket_send_incomplete) : settled st := by
  constructor <;> intro h' <;> rw [h] at h' <;> simp at h'

theorem on_would_block_settled (c c' : config_t) (hb : c.event.state.buf ≠ none)
    (h : on_would_block c = result_t.returned c') : settled c'.event.state := by
  unfold on_would_block at h
  split_ifs at h with hp
  · injection h with h
    subst h
    exact settled_init _
  · injection h with h
    subst h
    have hp' : c.event.state.state = state_t.fsm_socket_recv_incomplete := not_not.mp hp
    constructor
    · intro h'; rw [hp'] at h'; simp at h'
    · intro _; exact hb

/-- The drain loop entered with a buffer leaves the connection settled when it returns,
provided no collaborator clears the buffer pointer and the processor never answers
connection-closing. -/
theorem drain_loop_settled (env : env_t)
    (hP : ∀ s, (env.process_command s).1 ≠ 2 ∧
      (s.buf ≠ none → (env.process_command s).2.buf ≠ none))
    (hE : ∀ s, s.buf ≠ none → (env.send_err_to_client s).buf ≠ none)
    (reads : List read_result_t) :
    ∀ c c' : config_t, c.event.state.buf ≠ none →
      drain_loop env reads c = result_t.returned c' → settled c'.event.state := by
  induction reads with
  | nil =>
    intro c c' hb h
    rw [drain_loop_nil] at h
    exact on_would_block_settled (after_read env c _) c' hb h
  | cons r rest ih =>
    intro c c' hb h
    cases r with
    | error e =>
      by_cases he : e = EAGAIN ∨ e = EWOULDBLOCK
      · rw [drain_loop_would_block env e rest c he] at h
        exact on_would_block_settled (after_read env c _) c' hb h
      · rw [drain_loop_read_error env e rest c he] at h
        cases h
    | bytes d =>
      cases d with
      | nil =>
        rw [drain_loop_zero] at h
        cases h
      | cons x xs =>
        have hadv : (advance c.event.state (x :: xs)).buf ≠ none := by
          cases hbuf : c.event.state.buf with
          | none => exact absurd hbuf hb
          | some b => simp [advance, hbuf]
        have hb2 : (after_command env c (.bytes (x :: xs))).event.state.buf ≠ none :=
          (hP _).2 hadv
        have hb3 : (after_send_err env (after_command env c (.bytes (x :: xs)))).event.state.buf
            ≠ none := hE _ hb2
        rw [drain_loop_data] at h
        simp only at h
        split_ifs at h with h1 h2 h3 h4 h5 h6
        · exact ih (reset_connected _) c' hb3 h
        · injection h with h
          subst h
          exact settled_sending _ (not_not.mp h3)
        · exact ih (reset_connected _) c' hb2 h
        · injection h with h
          subst h
          exact settled_sending _ (not_not.mp h4)
        · exact ih (set_recv_incomplete _) c' hb2 h
        · exact absurd h6 (hP _).1
        · exact ih _ c' hb2 h

theorem acquire_buffer_some (env : env_t) (c : config_t) :
    (acquire_buffer env c).event.state.buf ≠ none := by
  unfold acquire_buffer
  split_ifs with h
  · simp
  · exact h

theorem fsm_socket_ready_settled (env : env_t)
    (hP : ∀ s, (env.process_command s).1 ≠ 2 ∧
      (s.buf ≠ none → (env.process_command s).2.buf ≠ none))
    (hE : ∀ s, s.buf ≠ none → (env.send_err_to_client s).buf ≠ none)
    (reads : List read_result_t) (c c' : config_t)
    (hs : (c.event.op = event_op_t.eo_rdwr ∨ c.event.op = event_op_t.eo_read) ∨
      settled c.event.state)
    (h : fsm_socket_ready env reads c = result_t.returned c') : settled c'.event.state := by
  by_cases hty : c.event.event_type = event_type_t.et_sock
  · by_cases hop : c.event.op = event_op_t.eo_rdwr ∨ c.event.op = event_op_t.eo_read
    · rw [fsm_socket_ready_readable env reads c hty hop] at h
      exact drain_loop_settled env hP hE reads _ c' (acquire_buffer_some env c) h
    · simp only [fsm_socket_ready, hty, hop, if_true, if_false] at h
      injection h with h
      subst h
      exact hs.resolve_left hop
  · simp [fsm_socket_ready, hty] at h

theorem fsm_socket_send_incomplete_settled (env : env_t)
    (hP : ∀ s, (env.process_command s).1 ≠ 2 ∧
      (s.buf ≠ none → (env.process_command s).2.buf ≠ none))
    (hE : ∀ s, s.buf ≠ none → (env.send_err_to_client s).buf ≠ none)
    (reads : List read_result_t) (c c' : config_t)
    (hph : c.event.state.state = state_t.fsm_socket_send_incomplete)
    (h : fsm_socket_send_incomplete env reads c = result_t.returned c') :
    settled c'.event.state := by
  by_cases hty : c.event.event_type = event_type_t.et_sock
  · by_cases hop : c.event.op = event_op_t.eo_rdwr ∨ c.event.op = event_op_t.eo_write
    · by_cases hs : (env.send_msg_to_client c.event.state).state
          = state_t.fsm_socket_send_incomplete
      · simp only [fsm_socket_send_incomplete, hty, hop, if_true, hs, ne_eq,
          not_true_eq_false, if_false] at h
        injection h with h
        subst h
        exact settled_sending _ hs
      · simp only [fsm_socket_send_incomplete, hty, hop, if_true, hs, ne_eq,
          not_false_eq_true] at h
        exact fsm_socket_ready_settled env hP hE reads _ c' (Or.inl (Or.inr rfl)) h
    · simp only [fsm_socket_send_incomplete, hty, hop, if_true, if_false, hph, ne_eq,
        not_true_eq_false] at h
      injection h with h
      subst h
      exact settled_sending _ hph
  · simp [fsm_socket_send_incomplete, hty] at h

theorem fsm_do_transition_settled (env : env_t)
    (hP : ∀ s, (env.process_command s).1 ≠ 2 ∧
      (s.buf ≠ none → (env.process_command s).2.buf ≠ none))
    (hE : ∀ s, s.buf ≠ none → (env.send_err_to_client s).buf ≠ none)
    (reads : List read_result_t) (c c' : config_t) (hs : settled c.event.state)
    (h : fsm_do_transition env reads c = result_t.returned c') : settled c'.event.state := by
  unfold fsm_do_transition at h
  split at h
  · exact fsm_socket_ready_settled env hP hE reads c c' (Or.inr hs) h
  · exact fsm_socket_ready_settled env hP hE reads c c' (Or.inr hs) h
  · rename_i hph
    exact fsm_socket_send_incomplete_settled env hP hE reads c c' hph h
  · simp at h

/-- C1, as amended: the buffer discipline after settled dispatch calls.  Start from a
freshly initialised connection state and let the driver deliver any sequence of events,
of any kind, with any read results, to collaborators that never clear the buffer
pointer and whose processor never answers connection-closing.  Whenever the sequence
has returned without destroying the connection or terminating the process, a connection
in phase connected holds no buffer and one in phase recv-incomplete holds one. -/
theorem settled_after_dispatch (env : env_t) (calls : List call_t) (c c' : config_t)
    (s0 : fsm_state_t)
    (hst : c.event.state = fsm_init_state s0)
    (hP : ∀ s, (env.process_command s).1 ≠ 2 ∧
      (s.buf ≠ none → (env.process_command s).2.buf ≠ none))
    (hE : ∀ s, s.buf ≠ none → (env.send_err_to_client s).buf ≠ none)
    (h : dispatch_all env calls c = result_t.returned c') :
    (c'.event.state.state = state_t.fsm_socket_connected → c'.event.state.buf = none) ∧
    (c'.event.state.state = state_t.fsm_socket_recv_incomplete →
      c'.event.state.buf ≠ none) := by
  have hs : settled c.event.state := by rw [hst]; exact settled_init s0
  clear hst
  induction calls generalizing c with
  | nil =>
    simp only [dispatch_all] at h
    injection h with h
    subst h
    exact hs
  | cons k ks ih =>
    simp only [dispatch_all] at h
    split at h
    · rename_i c1 hc1
      exact ih c1 h (fsm_do_transition_settled env hP hE k.reads
        (next_event c k.event_type k.op) c1 hs hc1)
    · cases h
    · cases h

theorem plain_processor_contract (s : fsm_state_t) :
    (plain_processor s).1 ≠ 2 ∧ (s.buf ≠ none → (plain_processor s).2.buf ≠ none) := by
  unfold plain_processor
  split_ifs <;> simp

/-- C1, as amended, on a concrete run: after `AB` the connection is in phase
recv-incomplete and holds its buffer; after the whole sample sequence it is connected
and holds none. -/
theorem settled_after_dispatch_witness :
    ((dispatch_all plain_env (sample_calls.take 1) fresh_config).config.event.state.state
        = state_t.fsm_socket_recv_incomplete ∧
      (dispatch_all plain_env (sample_calls.take 1) fresh_config).config.event.state.buf
        ≠ none) ∧
    ((dispatch_all plain_env sample_calls fresh_config).config.event.state.state
        = state_t.fsm_socket_connected ∧
      (dispatch_all plain_env sample_calls fresh_config).config.event.state.buf = none) :=
  ⟨⟨by decide,
    (settled_after_dispatch plain_env (sample_calls.take 1) fresh_config _
      { state := state_t.other 0, buf := none, nbuf := 7, snbuf := 7, source := 5 } rfl
      plain_processor_contract (fun _ h => h) (by decide)).2 (by decide)⟩,
   ⟨by decide,
    (settled_after_dispatch plain_env sample_calls fresh_config _
      { state := state_t.other 0, buf := none, nbuf := 7, snbuf := 7, source := 5 } rfl
      plain_processor_contract (fun _ h => h) (by decide)).1 (by decide)⟩⟩

/-- C1, as stated, fails after a connection-closing answer: the line `q` makes the
sample processor answer connection-closing; the dispatch call returns without any
teardown effect, the phase is connected, and the buffer is still held. -/
theorem connected_with_buffer_after_closing :
    (dispatch_all sample_env closing_calls fresh_config).is_returned = true ∧
    command_views (dispatch_all sample_env closing_calls fresh_config).config.trace
      = [[113, 10]] ∧
    (sample_env.process_command
      { fresh_state with buf := some [113, 10, 0, 0, 0, 0, 0, 0], nbuf := 2 }).1 = 2 ∧
    (dispatch_all sample_env closing_calls fresh_config).config.trace.countP
      effect_t.is_teardown = 0 ∧
    (dispatch_all sample_env closing_calls fresh_config).config.event.state.state
      = state_t.fsm_socket_connected ∧
    (dispatch_all sample_env closing_calls fresh_config).config.event.state.buf
      = some [113, 10, 0, 0, 0, 0, 0, 0] := by
  decide

/-- C11: writable-only events are ignored while reading.  On a socket event whose
operation is write-only, `fsm_socket_ready` returns with the configuration it was given:
every field of the connection state and of the event is unchanged and the call adds no
effect at all, so no buffer is acquired or released, no read is performed and the
processor is not invoked.  (This holds in every phase, connected and recv-incomplete
included.) -/
theorem writable_only_ignored (env : env_t) (reads : List read_result_t) (c : config_t)
    (hty : c.event.event_type = event_type_t.et_sock)
    (hop : c.event.op = event_op_t.eo_write) :
    fsm_socket_ready env reads c = result_t.returned c ∧
    new_effects c (fsm_socket_ready env reads c).config = [] := by
  have h : fsm_socket_ready env reads c = result_t.returned c := by
    simp [fsm_socket_ready, hty, hop]
  refine ⟨h, ?_⟩
  rw [h]
  exact new_effects_of_append c c [] (by simp)

/-- C11, on a concrete event: a writable notification on a connection in phase
recv-incomplete, with data waiting on the socket, changes nothing and reads nothing. -/
theorem writable_only_ignored_witness :
    fsm_socket_ready sample_env [.bytes [66, 10]] writable_config
      = result_t.returned writable_config ∧
    new_effects writable_config
      (fsm_socket_ready sample_env [.bytes [66, 10]] writable_config).config = [] :=
  writable_only_ignored sample_env [.bytes [66, 10]] writable_config rfl rfl

/-- C14: the connection-closing result.  At a positive read after which the processor
answers connection-closing (`2`), the drain loop stops at once: the call returns with
the connection state exactly as the processor left it, the event untouched, and the
read and the processor call as the only effects of the iteration (no further read, no
error response, no teardown).  What the loop itself did to the state before handing it
to the processor is the cursor advance of that read, with the bytes stored in the
buffer: phase, send cursor, descriptor and the presence of the buffer are untouched. -/
theorem connection_closing_step (env : env_t) (x : Nat) (xs : List Nat)
    (rest : List read_result_t) (c : config_t)
    (h : (env.process_command (advance c.event.state (x :: xs))).1 = 2) :
    drain_loop env (.bytes (x :: xs) :: rest) c
      = result_t.returned
          { event := { c.event with
              state := (env.process_command (advance c.event.state (x :: xs))).2 },
            trace := c.trace ++ [read_effect env c.event.state (.bytes (x :: xs)),
              process_effect env (advance c.event.state (x :: xs))] } ∧
    (advance c.event.state (x :: xs)).nbuf = c.event.state.nbuf + (x :: xs).length ∧
    (advance c.event.state (x :: xs)).state = c.event.state.state ∧
    (advance c.event.state (x :: xs)).snbuf = c.event.state.snbuf ∧
    (advance c.event.state (x :: xs)).source = c.event.state.source ∧
    ((advance c.event.state (x :: xs)).buf = none ↔ c.event.state.buf = none) := by
  refine ⟨?_, rfl, rfl, rfl, rfl, ?_⟩
  · rw [drain_loop_data]
    simp only [h, show ¬ ((2 : Int) = -1 ∨ (2 : Int) = 0) by decide,
      show ¬ ((2 : Int) = 1) by decide, if_false, if_true]
    rfl
  · simp [advance]

/-- C14, on a concrete run: the line `q` closes the session; the call stops after one
read and one processor call, although more data is waiting. -/
theorem connection_closing_step_witness :
    drain_loop sample_env [.bytes [113, 10], .bytes [65]] (acquire_buffer sample_env fresh_config)
      = result_t.returned
          { event := { event_type := event_type_t.et_sock, op := event_op_t.eo_read,
                       state := { fresh_state with
                         buf := some [113, 10, 0, 0, 0, 0, 0, 0], nbuf := 2 } },
            trace := [effect_t.alloc_malloc,
              read_effect sample_env (acquire_buffer sample_env fresh_config).event.state
                (.bytes [113, 10]),
              process_effect sample_env
                (advance (acquire_buffer sample_env fresh_config).event.state [113, 10])] } :=
  (connection_closing_step sample_env 113 [10] [.bytes [65]]
    (acquire_buffer sample_env fresh_config) (by decide)).1

/-- C19: a read-only event during a pending send, and events that are not socket
events.  In phase send-incomplete, on a socket event whose operation is read-only,
`fsm_socket_send_incomplete` returns with the configuration it was given: no
`send_msg_to_client`, no read, no field of the state or of the event changed.  On an
event that is not a socket event both handlers end in the fatal outcome, in any phase,
without any effect. -/
theorem read_only_during_send (env : env_t) (reads : List read_result_t) (c : config_t) :
    (c.event.event_type = event_type_t.et_sock → c.event.op = event_op_t.eo_read →
      c.event.state.state = state_t.fsm_socket_send_incomplete →
      fsm_socket_send_incomplete env reads c = result_t.returned c) ∧
    (c.event.event_type ≠ event_type_t.et_sock →
      fsm_socket_send_incomplete env reads c = result_t.fatal c ∧
      fsm_socket_ready env reads c = result_t.fatal c) := by
  constructor
  · intro hty hop hph
    simp [fsm_socket_send_incomplete, hty, hop, hph]
  · intro hty
    simp [fsm_socket_send_incomplete, fsm_socket_ready, hty]

/-- C19, on concrete events: a readable notification during a pending send changes
nothing although data is waiting; an event of another kind is fatal. -/
theorem read_only_during_send_witness :
    fsm_socket_send_incomplete slow_env [.bytes [65]] sending_readable_config
      = result_t.returned sending_readable_config ∧
    fsm_socket_send_incomplete slow_env [.bytes [65]] foreign_config
      = result_t.fatal foreign_config ∧
    fsm_socket_ready slow_env [.bytes [65]] foreign_config = result_t.fatal foreign_config :=
  ⟨(read_only_during_send slow_env [.bytes [65]] sending_readable_config).1 rfl rfl rfl,
   ((read_only_during_send slow_env [.bytes [65]] foreign_config).2 (by decide)).1,
   ((read_only_during_send slow_env [.bytes [65]] foreign_config).2 (by decide)).2⟩

@[simp] theorem new_effects_self (c : config_t) : new_effects c c = [] := by
  simp [new_effects]

@[simp] theorem config_returned (c : config_t) : (result_t.returned c).config = c := rfl

@[simp] theorem config_destroyed (c : config_t) : (result_t.destroyed c).config = c := rfl

@[simp] theorem config_fatal (c : config_t) : (result_t.fatal c).config = c := rfl

theorem new_effects_continue (env : env_t) (rest : List read_result_t) (c c' : config_t)
    (mid : List effect_t) (h : c'.trace = c.trace ++ mid) :
    new_effects c (drain_loop env rest c').config
      = mid ++ new_effects c' (drain_loop env rest c').config := by
  apply new_effects_of_append
  rw [drain_loop_trace env rest c', h, List.append_assoc]

theorem new_effects_on_would_block (env : env_t) (c : config_t) (r : read_result_t) :
    new_effects c (on_would_block (after_read env c r)).config
      = read_effect env c.event.state r ::
          (if c.event.state.state ≠ state_t.fsm_socket_recv_incomplete
            then [effect_t.alloc_free_buf c.event.state.buf] else []) := by
  apply new_effects_of_append
  unfold on_would_block
  split_ifs with h1 h2 h2
  · simp [result_t.config, return_to_fsm_socket_connected]
  · exact absurd h1 h2
  · exact absurd h2 h1
  · simp [result_t.config]

/-- Every read of the drain loop is issued in phase connected or recv-incomplete, when
the loop is entered in one of them and the processor answers one of its four results. -/
theorem drain_loop_read_phases (env : env_t)
    (hP : ∀ s, (env.process_command s).1 = -1 ∨ (env.process_command s).1 = 0 ∨
      (env.process_command s).1 = 1 ∨ (env.process_command s).1 = 2)
    (reads : List read_result_t) :
    ∀ c : config_t,
      (c.event.state.state = state_t.fsm_socket_connected ∨
        c.event.state.state = state_t.fsm_socket_recv_incomplete) →
      ∀ st cnt r, effect_t.read st cnt r ∈ new_effects c (drain_loop env reads c).config →
        st.state = state_t.fsm_socket_connected ∨
          st.state = state_t.fsm_socket_recv_incomplete := by
  induction reads with
  | nil =>
    intro c hc st cnt r hm
    rw [drain_loop_nil, new_effects_on_would_block] at hm
    simp only [List.mem_cons, read_effect] at hm
    rcases hm with hm | hm
    · injection hm with h1 h2 h3; rw [h1]; exact hc
    · split_ifs at hm <;> simp at hm
  | cons r0 rest ih =>
    intro c hc st cnt r hm
    have hhere : ∀ post : List effect_t, (∀ e ∈ post, e.is_read = false) →
        effect_t.read st cnt r ∈ read_effect env c.event.state r0 :: post →
        st.state = state_t.fsm_socket_connected ∨
          st.state = state_t.fsm_socket_recv_incomplete := by
      intro post hpost hm
      simp only [List.mem_cons, read_effect] at hm
      rcases hm with hm | hm
      · injection hm with h1 h2 h3; rw [h1]; exact hc
      · have := hpost _ hm
        simp [effect_t.is_read] at this
    cases r0 with
    | error e =>
      by_cases he : e = EAGAIN ∨ e = EWOULDBLOCK
      · rw [drain_loop_would_block env e rest c he, new_effects_on_would_block] at hm
        refine hhere _ ?_ hm
        intro e' he'
        split_ifs at he' <;> simp at he'
        subst he'; rfl
      · rw [drain_loop_read_error env e rest c he] at hm
        rw [new_effects_of_append c _ [read_effect env c.event.state (.error e)] rfl] at hm
        exact hhere [] (by simp) hm
    | bytes d =>
      cases d with
      | nil =>
        rw [drain_loop_zero] at hm
        rw [new_effects_of_append c _ (read_effect env c.event.state (.bytes []) ::
          fsm_destroy_effects c.event.state) (by simp [result_t.config, fsm_destroy_state])] at hm
        refine hhere _ ?_ hm
        intro e' he'
        simp only [fsm_destroy_effects, List.mem_append, List.mem_cons, List.mem_singleton,
          List.not_mem_nil, or_false] at he'
        rcases he' with (he' | he') | he' | he'
        · split_ifs at he' <;> simp at he'
          subst he'; rfl
        · split_ifs at he' <;> simp at he'
          rcases he' with rfl | rfl | rfl <;> rfl
        · subst he'; rfl
        · subst he'; rfl
      | cons x xs =>
        have hcmd : ∀ e ∈ [process_effect env (advance c.event.state (x :: xs))],
            e.is_read = false := by
          intro e he; simp only [List.mem_singleton] at he; subst he; rfl
        have hcmd2 : ∀ e ∈ [process_effect env (advance c.event.state (x :: xs)),
            send_err_effect env (env.process_command (advance c.event.state (x :: xs))).2],
            e.is_read = false := by
          intro e he
          simp only [List.mem_cons, List.mem_singleton, List.not_mem_nil, or_false] at he
          rcases he with rfl | rfl <;> rfl
        rw [drain_loop_data] at hm
        simp only at hm
        split_ifs at hm with h1 h2 h3 h4 h5 h6
        · rw [new_effects_continue env rest c _
            [read_effect env c.event.state (.bytes (x :: xs)),
             process_effect env (advance c.event.state (x :: xs)),
             send_err_effect env (env.process_command (advance c.event.state (x :: xs))).2]
            (by simp [read_result_t.data]), List.mem_append] at hm
          rcases hm with hm | hm
          · exact hhere _ hcmd2 hm
          · exact ih _ (Or.inl rfl) st cnt r hm
        · rw [new_effects_of_append c _
            [read_effect env c.event.state (.bytes (x :: xs)),
             process_effect env (advance c.event.state (x :: xs)),
             send_err_effect env (env.process_command (advance c.event.state (x :: xs))).2]
            (by simp [result_t.config, read_result_t.data])] at hm
          exact hhere _ hcmd2 hm
        · rw [new_effects_continue env rest c _
            [read_effect env c.event.state (.bytes (x :: xs)),
             process_effect env (advance c.event.state (x :: xs))]
            (by simp [read_result_t.data]), List.mem_append] at hm
          rcases hm with hm | hm
          · exact hhere _ hcmd hm
          · exact ih _ (Or.inl rfl) st cnt r hm
        · rw [new_effects_of_append c _
            [read_effect env c.event.state (.bytes (x :: xs)),
             process_effect env (advance c.event.state (x :: xs))]
            (by simp [result_t.config, read_result_t.data])] at hm
          exact hhere _ hcmd hm
        · rw [new_effects_continue env rest c _
            [read_effect env c.event.state (.bytes (x :: xs)),
             process_effect env (advance c.event.state (x :: xs))]
            (by simp [read_result_t.data]), List.mem_append] at hm
          rcases hm with hm | hm
          · exact hhere _ hcmd hm
          · exact ih _ (Or.inr rfl) st cnt r hm
        · rw [new_effects_of_append c _
            [read_effect env c.event.state (.bytes (x :: xs)),
             process_effect env (advance c.event.state (x :: xs))]
            (by simp [result_t.config, read_result_t.data])] at hm
          exact hhere _ hcmd hm
        · exfalso
          rcases hP (advance c.event.state (x :: xs)) with h | h | h | h
          · exact h1 (Or.inl h)
          · exact h1 (Or.inr h)
          · exact h5 h
          · exact h6 h

theorem acquire_buffer_phase (env : env_t) (c : config_t) :
    (acquire_buffer env c).event.state.state = c.event.state.state := by
  unfold acquire_buffer
  split_ifs <;> rfl

theorem fsm_socket_ready_read_phases (env : env_t)
    (hP : ∀ s, (env.process_command s).1 = -1 ∨ (env.process_command s).1 = 0 ∨
      (env.process_command s).1 = 1 ∨ (env.process_command s).1 = 2)
    (reads : List read_result_t) (c : config_t)
    (hc : c.event.state.state = state_t.fsm_socket_connected ∨
      c.event.state.state = state_t.fsm_socket_recv_incomplete)
    (st : fsm_state_t) (cnt : Int) (r : read_result_t)
    (hm : effect_t.read st cnt r ∈ new_effects c (fsm_socket_ready env reads c).config) :
    st.state = state_t.fsm_socket_connected ∨
      st.state = state_t.fsm_socket_recv_incomplete := by
  by_cases hty : c.event.event_type = event_type_t.et_sock
  · by_cases hop : c.event.op = event_op_t.eo_rdwr ∨ c.event.op = event_op_t.eo_read
    · rw [fsm_socket_ready_readable env reads c hty hop] at hm
      obtain ⟨t0, ht0, hc0⟩ := acquire_buffer_trace env c
      rw [new_effects_continue env reads c _ t0 ht0, List.mem_append] at hm
      rcases hm with hm | hm
      · rcases hc0 with rfl | rfl <;> simp at hm
      · exact drain_loop_read_phases env hP reads _
          (by rw [acquire_buffer_phase]; exact hc) st cnt r hm
    · have h : fsm_socket_ready env reads c = result_t.returned c := by
        simp [fsm_socket_ready, hty, hop]
      rw [h] at hm
      simp at hm
  · have h : fsm_socket_ready env reads c = result_t.fatal c := by
      simp [fsm_socket_ready, hty]
    rw [h] at hm
    simp at hm

/-- C15: the would-block branch is never reached in phase send-incomplete.  Let a
dispatch call (`fsm_do_transition`, on any event and any state) run with a processor
that answers only its four results, and with a `send_msg_to_client` that leaves one of
the three phases of the data model.  Then every read of the call, in particular every
read that reports would-block, whether the loop was entered directly or through the
re-dispatch after a completed send, is issued in phase connected or recv-incomplete,
never in phase send-incomplete; so the buffer release of the would-block branch never
happens while a send is pending. -/
theorem would_block_not_while_sending (env : env_t) (reads : List read_result_t)
    (c : config_t) (st : fsm_state_t) (cnt : Int) (r : read_result_t)
    (hP : ∀ s, (env.process_command s).1 = -1 ∨ (env.process_command s).1 = 0 ∨
      (env.process_command s).1 = 1 ∨ (env.process_command s).1 = 2)
    (hM : ∀ s, (env.send_msg_to_client s).state = state_t.fsm_socket_connected ∨
      (env.send_msg_to_client s).state = state_t.fsm_socket_recv_incomplete ∨
      (env.send_msg_to_client s).state = state_t.fsm_socket_send_incomplete)
    (hm : effect_t.read st cnt r ∈ new_effects c (fsm_do_transition env reads c).config) :
    (st.state = state_t.fsm_socket_connected ∨
      st.state = state_t.fsm_socket_recv_incomplete) ∧
    st.state ≠ state_t.fsm_socket_send_incomplete := by
  have key : st.state = state_t.fsm_socket_connected ∨
      st.state = state_t.fsm_socket_recv_incomplete := by
    unfold fsm_do_transition at hm
    split at hm
    · rename_i hph
      exact fsm_socket_ready_read_phases env hP reads c (Or.inl hph) st cnt r hm
    · rename_i hph
      exact fsm_socket_ready_read_phases env hP reads c (Or.inr hph) st cnt r hm
    · rename_i hph
      by_cases hty : c.event.event_type = event_type_t.et_sock
      · by_cases hop : c.event.op = event_op_t.eo_rdwr ∨ c.event.op = event_op_t.eo_write
        · by_cases hs : (env.send_msg_to_client c.event.state).state
              = state_t.fsm_socket_send_incomplete
          · have h : fsm_socket_send_incomplete env reads c
                = result_t.returned (after_send_msg env c) := by
              simp [fsm_socket_send_incomplete, hty, hop, hs, after_send_msg]
            rw [h, new_effects_of_append c _ [_] rfl] at hm
            simp at hm
          · have h : fsm_socket_send_incomplete env reads c
                = fsm_socket_ready env reads
                    { (after_send_msg env c) with
                      event := { (after_send_msg env c).event with op := event_op_t.eo_read } } := by
              simp [fsm_socket_send_incomplete, hty, hop, hs, after_send_msg]
            rw [h] at hm
            have hph' : (env.send_msg_to_client c.event.state).state
                = state_t.fsm_socket_connected ∨
                (env.send_msg_to_client c.event.state).state
                = state_t.fsm_socket_recv_incomplete := by
              rcases hM c.event.state with h' | h' | h'
              · exact Or.inl h'
              · exact Or.inr h'
              · exact absurd h' hs
            have hsplit := new_effects_of_append c
              (fsm_socket_ready env reads
                { (after_send_msg env c) with
                  event := { (after_send_msg env c).event with op := event_op_t.eo_read } }).config
              ([effect_t.send_msg_to_client c.event.state
                  (env.send_msg_to_client c.event.state)] ++
                new_effects { (after_send_msg env c) with
                    event := { (after_send_msg env c).event with op := event_op_t.eo_read } }
                  (fsm_socket_ready env reads
                    { (after_send_msg env c) with
                      event := { (after_send_msg env c).event with
                        op := event_op_t.eo_read } }).config)
              (by
                obtain ⟨t, ht, -⟩ := fsm_socket_ready_send_msg_count env reads
                  { (after_send_msg env c) with
                    event := { (after_send_msg env c).event with op := event_op_t.eo_read } }
                rw [new_effects_of_append _ _ t ht, ht]
                simp [after_send_msg])
            rw [hsplit, List.mem_append] at hm
            rcases hm with hm | hm
            · simp at hm
            · exact fsm_socket_ready_read_phases env hP reads _ hph' st cnt r hm
        · have h : fsm_socket_send_incomplete env reads c = result_t.returned c := by
            simp [fsm_socket_send_incomplete, hty, hop, hph]
          rw [h] at hm
          simp at hm
      · have h : fsm_socket_send_incomplete env reads c = result_t.fatal c := by
          simp [fsm_socket_send_incomplete, hty]
        rw [h] at hm
        simp at hm
    · simp at hm
  refine ⟨key, ?_⟩
  rcases key with h | h <;> rw [h] <;> simp

theorem line_processor_four_way (s : fsm_state_t) :
    (line_processor s).1 = -1 ∨ (line_processor s).1 = 0 ∨
      (line_processor s).1 = 1 ∨ (line_processor s).1 = 2 := by
  unfold line_processor
  split_ifs <;> simp

/-- C15, on a concrete run: a writable event completes the pending send, the read pass
handles the line that arrived meanwhile and then finds the socket empty; that
would-block read is issued in phase connected. -/
theorem would_block_not_while_sending_witness :
    effect_t.read resumed_state 8 (.error 11) ∈ new_effects sending_config
      (fsm_do_transition sample_env [.bytes [81, 10], .error 11] sending_config).config ∧
    (resumed_state.state = state_t.fsm_socket_connected ∨
      resumed_state.state = state_t.fsm_socket_recv_incomplete) ∧
    resumed_state.state ≠ state_t.fsm_socket_send_incomplete :=
  ⟨by decide,
   would_block_not_while_sending sample_env [.bytes [81, 10], .error 11] sending_config
     resumed_state 8 (.error 11) line_processor_four_way (fun _ => Or.inl rfl) (by decide)⟩

theorem fsm_socket_ready_trace (env : env_t) (reads : List read_result_t) (c : config_t) :
    (fsm_socket_ready env reads c).config.trace
      = c.trace ++ new_effects c (fsm_socket_ready env reads c).config := by
  obtain ⟨t, ht, -⟩ := fsm_socket_ready_send_msg_count env reads c
  rw [new_effects_of_append _ _ t ht, ht]

theorem fsm_socket_send_incomplete_cases (env : env_t) (reads : List read_result_t)
    (c : config_t) :
    fsm_socket_send_incomplete env reads c = result_t.fatal c ∨
    fsm_socket_send_incomplete env reads c = result_t.returned c ∨
    fsm_socket_send_incomplete env reads c = result_t.returned (after_send_msg env c) ∨
    (fsm_socket_send_incomplete env reads c
        = fsm_socket_ready env reads (next_event c c.event.event_type event_op_t.eo_read) ∧
      c.event.state.state ≠ state_t.fsm_socket_send_incomplete) ∨
    (fsm_socket_send_incomplete env reads c
        = fsm_socket_ready env reads
            (next_event (after_send_msg env c) c.event.event_type event_op_t.eo_read) ∧
      (env.send_msg_to_client c.event.state).state ≠ state_t.fsm_socket_send_incomplete) := by
  by_cases hty : c.event.event_type = event_type_t.et_sock
  · by_cases hop : c.event.op = event_op_t.eo_rdwr ∨ c.event.op = event_op_t.eo_write
    · by_cases hs : (env.send_msg_to_client c.event.state).state
          = state_t.fsm_socket_send_incomplete
      · right; right; left
        simp [fsm_socket_send_incomplete, hty, hop, hs, after_send_msg]
      · right; right; right; right
        refine ⟨?_, hs⟩
        simp [fsm_socket_send_incomplete, hty, hop, hs, after_send_msg, next_event]
    · by_cases hs : c.event.state.state = state_t.fsm_socket_send_incomplete
      · right; left
        simp [fsm_socket_send_incomplete, hty, hop, hs]
      · right; right; right; left
        refine ⟨?_, hs⟩
        simp [fsm_socket_send_incomplete, hty, hop, hs, next_event]
  · left
    simp [fsm_socket_send_incomplete, hty]

theorem fsm_do_transition_cases (env : env_t) (reads : List read_result_t) (c : config_t) :
    fsm_do_transition env reads c = result_t.fatal c ∨
    fsm_do_transition env reads c = fsm_socket_ready env reads c ∨
    (fsm_do_transition env reads c = fsm_socket_send_incomplete env reads c ∧
      c.event.state.state = state_t.fsm_socket_send_incomplete) := by
  unfold fsm_do_transition
  split
  · right; left; rfl
  · right; left; rfl
  · rename_i h; right; right; exact ⟨rfl, h⟩
  · left; simp

theorem fsm_socket_send_incomplete_trace (env : env_t) (reads : List read_result_t)
    (c : config_t) :
    (fsm_socket_send_incomplete env reads c).config.trace
      = c.trace ++ new_effects c (fsm_socket_send_incomplete env reads c).config := by
  rcases fsm_socket_send_incomplete_cases env reads c with h | h | h | ⟨h, -⟩ | ⟨h, -⟩
  · rw [h]; simp
  · rw [h]; simp
  · rw [h, new_effects_of_append c _ [_] rfl]; rfl
  · rw [h]
    have := fsm_socket_ready_trace env reads (next_event c c.event.event_type event_op_t.eo_read)
    rw [this]
    congr 1
  · rw [h]
    have := fsm_socket_ready_trace env reads
      (next_event (after_send_msg env c) c.event.event_type event_op_t.eo_read)
    have h2 : (fsm_socket_ready env reads
        (next_event (after_send_msg env c) c.event.event_type event_op_t.eo_read)).config.trace
        = c.trace ++ ([effect_t.send_msg_to_client c.event.state
            (env.send_msg_to_client c.event.state)] ++
          new_effects (next_event (after_send_msg env c) c.event.event_type event_op_t.eo_read)
            (fsm_socket_ready env reads (next_event (after_send_msg env c)
              c.event.event_type event_op_t.eo_read)).config) := by
      rw [this, ← List.append_assoc]; rfl
    rw [new_effects_of_append c _ _ h2, h2]

theorem fsm_do_transition_trace (env : env_t) (reads : List read_result_t) (c : config_t) :
    (fsm_do_transition env reads c).config.trace
      = c.trace ++ new_effects c (fsm_do_transition env reads c).config := by
  rcases fsm_do_transition_cases env reads c with h | h | ⟨h, -⟩
  · rw [h]; simp
  · rw [h]; exact fsm_socket_ready_trace env reads c
  · rw [h]; exact fsm_socket_send_incomplete_trace env reads c

theorem dispatch_all_trace (env : env_t) (calls : List call_t) :
    ∀ c : config_t, (dispatch_all env calls c).config.trace
      = c.trace ++ new_effects c (dispatch_all env calls c).config := by
  induction calls with
  | nil => intro c; simp [dispatch_all]
  | cons k ks ih =>
    intro c
    have h1 := fsm_do_transition_trace env k.reads (next_event c k.event_type k.op)
    simp only [dispatch_all]
    split
    · rename_i c1 hc1
      rw [hc1] at h1
      have h2 := ih c1
      have h3 : (dispatch_all env ks c1).config.trace = c.trace ++
          (new_effects (next_event c k.event_type k.op) c1 ++
            new_effects c1 (dispatch_all env ks c1).config) := by
        rw [h2]
        have : c1.trace = c.trace ++ new_effects (next_event c k.event_type k.op) c1 := h1
        rw [this, List.append_assoc]
      rw [new_effects_of_append c _ _ h3, h3]
    · rename_i c1 hc1
      rw [hc1] at h1
      have h1' : c1.trace = c.trace ++ new_effects (next_event c k.event_type k.op) c1 := h1
      rw [config_destroyed, new_effects_of_append c c1 _ h1', h1']
    · rename_i c1 hc1
      rw [hc1] at h1
      have h1' : c1.trace = c.trace ++ new_effects (next_event c k.event_type k.op) c1 := h1
      rw [config_fatal, new_effects_of_append c c1 _ h1', h1']

/-- The effects of the drain loop start with the first read of the script. -/
theorem first_read_mem (env : env_t) (r0 : read_result_t) (rest : List read_result_t)
    (c : config_t) :
    ∃ t, new_effects c (drain_loop env (r0 :: rest) c).config
      = read_effect env c.event.state r0 :: t := by
  cases r0 with
  | error e =>
    by_cases he : e = EAGAIN ∨ e = EWOULDBLOCK
    · rw [drain_loop_would_block env e rest c he, new_effects_on_would_block]
      exact ⟨_, rfl⟩
    · rw [drain_loop_read_error env e rest c he]
      exact ⟨[], new_effects_of_append c _ _ rfl⟩
  | bytes d =>
    cases d with
    | nil =>
      rw [drain_loop_zero]
      exact ⟨_, new_effects_of_append c _ (read_effect env c.event.state (.bytes []) ::
        fsm_destroy_effects c.event.state) (by simp [fsm_destroy_state])⟩
    | cons x xs =>
      rw [drain_loop_data]
      simp only
      split_ifs
      · exact ⟨_, new_effects_continue env rest c _
          [read_effect env c.event.state (.bytes (x :: xs)),
           process_effect env (advance c.event.state (x :: xs)),
           send_err_effect env (env.process_command (advance c.event.state (x :: xs))).2]
          (by simp [read_result_t.data])⟩
      · exact ⟨_, new_effects_of_append c _
          [read_effect env c.event.state (.bytes (x :: xs)),
           process_effect env (advance c.event.state (x :: xs)),
           send_err_effect env (env.process_command (advance c.event.state (x :: xs))).2]
          (by simp [read_result_t.data])⟩
      · exact ⟨_, new_effects_continue env rest c _
          [read_effect env c.event.state (.bytes (x :: xs)),
           process_effect env (advance c.event.state (x :: xs))]
          (by simp [read_result_t.data])⟩
      · exact ⟨_, new_effects_of_append c _
          [read_effect env c.event.state (.bytes (x :: xs)),
           process_effect env (advance c.event.state (x :: xs))]
          (by simp [read_result_t.data])⟩
      · exact ⟨_, new_effects_continue env rest c _
          [read_effect env c.event.state (.bytes (x :: xs)),
           process_effect env (advance c.event.state (x :: xs))]
          (by simp [read_result_t.data])⟩
      · exact ⟨_, new_effects_of_append c _
          [read_effect env c.event.state (.bytes (x :: xs)),
           process_effect env (advance c.event.state (x :: xs))]
          (by simp [read_result_t.data])⟩
      · exact ⟨_, new_effects_continue env rest c _
          [read_effect env c.event.state (.bytes (x :: xs)),
           process_effect env (advance c.event.state (x :: xs))]
          (by simp [read_result_t.data])⟩

theorem would_block_nil_recv (env : env_t) (c : config_t)
    (hp : c.event.state.state = state_t.fsm_socket_recv_incomplete) :
    drain_loop env [] c = result_t.returned (after_read env c (.error EAGAIN)) := by
  rw [drain_loop_nil]
  simp [on_would_block, hp]

/-- What a call may add to the trace once the buffer is full: no processor call, and
reads that ask for zero bytes only. -/
theorem full_buffer_dispatch (env : env_t) (reads : List read_result_t) (c : config_t)
    (hph : c.event.state.state = state_t.fsm_socket_recv_incomplete)
    (hn : c.event.state.nbuf = env.IO_BUFFER_SIZE)
    (hb : c.event.state.buf ≠ none)
    (hR : ∀ e ∈ new_effects c (fsm_do_transition env reads c).config,
      e.within_request = true) :
    (∀ e ∈ new_effects c (fsm_do_transition env reads c).config,
      e.is_command = false ∧ ∀ st cnt r, e = effect_t.read st cnt r → cnt = 0) ∧
    ((∃ c', fsm_do_transition env reads c = result_t.returned c' ∧
        c'.event.state = c.event.state) ∨
      (∃ c', fsm_do_transition env reads c = result_t.fatal c') ∨
      (∃ c', fsm_do_transition env reads c = result_t.destroyed c')) := by
  have hroute : fsm_do_transition env reads c = fsm_socket_ready env reads c := by
    simp [fsm_do_transition, hph]
  rw [hroute] at hR ⊢
  have hread : ∀ r0 : read_result_t,
      (read_effect env c.event.state r0).is_command = false ∧
      ∀ st cnt r, read_effect env c.event.state r0 = effect_t.read st cnt r → cnt = 0 := by
    intro r0
    refine ⟨rfl, ?_⟩
    intro st cnt r h
    simp only [read_effect] at h
    injection h with h1 h2 h3
    rw [← h2, hn]; simp
  by_cases hty : c.event.event_type = event_type_t.et_sock
  · by_cases hop : c.event.op = event_op_t.eo_rdwr ∨ c.event.op = event_op_t.eo_read
    · have hacq : acquire_buffer env c = c := by simp [acquire_buffer, hb]
      rw [fsm_socket_ready_readable env reads c hty hop, hacq] at hR ⊢
      cases reads with
      | nil =>
        rw [would_block_nil_recv env c hph] at hR ⊢
        refine ⟨?_, Or.inl ⟨_, rfl, rfl⟩⟩
        rw [config_returned, new_effects_of_append c _ [_] rfl]
        intro e he
        simp only [List.mem_singleton] at he
        subst he; exact hread _
      | cons r0 rest =>
        cases r0 with
        | error e =>
          by_cases he : e = EAGAIN ∨ e = EWOULDBLOCK
          · rw [would_block_recv env e rest c he hph]
            refine ⟨?_, Or.inl ⟨_, rfl, rfl⟩⟩
            rw [config_returned, new_effects_of_append c _ [_] rfl]
            intro e' he'
            simp only [List.mem_singleton] at he'
            subst he'; exact hread _
          · rw [drain_loop_read_error env e rest c he]
            refine ⟨?_, Or.inr (Or.inl ⟨_, rfl⟩)⟩
            rw [config_fatal, new_effects_of_append c _ [_] rfl]
            intro e' he'
            simp only [List.mem_singleton] at he'
            subst he'; exact hread _
        | bytes d =>
          cases d with
          | nil =>
            rw [drain_loop_zero]
            refine ⟨?_, Or.inr (Or.inr ⟨_, rfl⟩)⟩
            rw [config_destroyed, new_effects_of_append c _
              (read_effect env c.event.state (.bytes []) :: fsm_destroy_effects c.event.state)
              (by simp [fsm_destroy_state])]
            intro e' he'
            simp only [List.mem_cons] at he'
            rcases he' with rfl | he'
            · exact hread _
            · simp only [fsm_destroy_effects, List.mem_append, List.mem_cons,
                List.mem_singleton, List.not_mem_nil, or_false] at he'
              rcases he' with (he' | he') | he' | he'
              · split_ifs at he'
                simp only [List.mem_singleton] at he'
                subst he'; exact ⟨rfl, by intro _ _ _ h; cases h⟩
              · split_ifs at he'
                · simp only [List.mem_cons, List.mem_singleton, List.not_mem_nil,
                    or_false] at he'
                  rcases he' with rfl | rfl | rfl <;> exact ⟨rfl, by intro _ _ _ h; cases h⟩
                · simp at he'
              · subst he'; exact ⟨rfl, by intro _ _ _ h; cases h⟩
              · subst he'; exact ⟨rfl, by intro _ _ _ h; cases h⟩
          | cons x xs =>
            exfalso
            obtain ⟨t, ht⟩ := first_read_mem env (.bytes (x :: xs)) rest c
            have := hR (read_effect env c.event.state (.bytes (x :: xs)))
              (by rw [ht]; simp)
            simp [read_effect, effect_t.within_request, read_result_t.ret, hn] at this
            omega
    · have h : fsm_socket_ready env reads c = result_t.returned c := by
        simp [fsm_socket_ready, hty, hop]
      rw [h]
      exact ⟨by simp, Or.inl ⟨c, rfl, rfl⟩⟩
  · have h : fsm_socket_ready env reads c = result_t.fatal c := by
      simp [fsm_socket_ready, hty]
    rw [h]
    exact ⟨by simp, Or.inr (Or.inl ⟨c, rfl⟩)⟩

/-- C17: the full buffer.  Take a connection in phase recv-incomplete that holds its
buffer with the cursor at `IO_BUFFER_SIZE`, and let the driver deliver any sequence of
events, where no read returns more than the count it was asked for.  Then every read
that is issued asks for zero bytes, the processor is never invoked again, and the
sequence ends in exactly one of three ways: every call returned and the connection
state is unchanged (would-block, or an ignored event), the process was terminated (a
read error other than would-block, or a foreign event), or the connection was destroyed
(a read of zero bytes, taken for the peer closing).  So a command that does not fit in
`IO_BUFFER_SIZE` bytes is never completed. -/
theorem full_buffer_stalls (env : env_t) (calls : List call_t) (c : config_t)
    (hph : c.event.state.state = state_t.fsm_socket_recv_incomplete)
    (hn : c.event.state.nbuf = env.IO_BUFFER_SIZE)
    (hb : c.event.state.buf ≠ none)
    (hR : ∀ e ∈ new_effects c (dispatch_all env calls c).config, e.within_request = true) :
    (new_effects c (dispatch_all env calls c).config).countP effect_t.is_command = 0 ∧
    (∀ st cnt r, effect_t.read st cnt r ∈ new_effects c (dispatch_all env calls c).config →
      cnt = 0) ∧
    ((∃ c', dispatch_all env calls c = result_t.returned c' ∧
        c'.event.state = c.event.state) ∨
      (∃ c', dispatch_all env calls c = result_t.fatal c') ∨
      (∃ c', dispatch_all env calls c = result_t.destroyed c')) := by
  have key : ∀ (calls : List call_t) (c : config_t),
      c.event.state.state = state_t.fsm_socket_recv_incomplete →
      c.event.state.nbuf = env.IO_BUFFER_SIZE → c.event.state.buf ≠ none →
      (∀ e ∈ new_effects c (dispatch_all env calls c).config, e.within_request = true) →
      (∀ e ∈ new_effects c (dispatch_all env calls c).config,
        e.is_command = false ∧ ∀ st cnt r, e = effect_t.read st cnt r → cnt = 0) ∧
      ((∃ c', dispatch_all env calls c = result_t.returned c' ∧
          c'.event.state = c.event.state) ∨
        (∃ c', dispatch_all env calls c = result_t.fatal c') ∨
        (∃ c', dispatch_all env calls c = result_t.destroyed c')) := by
    intro calls
    induction calls with
    | nil =>
      intro c _ _ _ _
      simp only [dispatch_all, config_returned, new_effects_self]
      exact ⟨by simp, Or.inl ⟨c, rfl, rfl⟩⟩
    | cons k ks ih =>
      intro c hph hn hb hR
      have h1 := fsm_do_transition_trace env k.reads (next_event c k.event_type k.op)
      have hstep := full_buffer_dispatch env k.reads (next_event c k.event_type k.op)
        hph hn hb
      simp only [dispatch_all] at hR ⊢
      split at hR
      · rename_i c1 hc1
        rw [hc1] at h1 hstep
        have h1' : c1.trace = c.trace ++ new_effects (next_event c k.event_type k.op) c1 := h1
        have h3 := new_effects_of_append c (dispatch_all env ks c1).config
          (new_effects (next_event c k.event_type k.op) c1 ++
            new_effects c1 (dispatch_all env ks c1).config)
          (by rw [dispatch_all_trace env ks c1, h1', List.append_assoc])
        rw [h3] at hR ⊢
        obtain ⟨s1, s2⟩ := hstep (fun e hm => hR e (List.mem_append_left _ hm))
        have hsame : c1.event.state = c.event.state := by
          rcases s2 with ⟨c', h, hs⟩ | ⟨c', h⟩ | ⟨c', h⟩
          · injection h with h; rw [h]; exact hs
          · cases h
          · cases h
        obtain ⟨i1, i2⟩ := ih c1 (by rw [hsame]; exact hph) (by rw [hsame]; exact hn)
          (by rw [hsame]; exact hb) (fun e hm => hR e (List.mem_append_right _ hm))
        refine ⟨?_, ?_⟩
        · intro e he
          rw [List.mem_append] at he
          rcases he with he | he
          · exact s1 e he
          · exact i1 e he
        · rw [hsame] at i2; exact i2
      · rename_i c1 hc1
        rw [hc1] at hstep
        exact ⟨(hstep hR).1, Or.inr (Or.inr ⟨c1, rfl⟩)⟩
      · rename_i c1 hc1
        rw [hc1] at hstep
        exact ⟨(hstep hR).1, Or.inr (Or.inl ⟨c1, rfl⟩)⟩
  obtain ⟨k1, k2⟩ := key calls c hph hn hb hR
  refine ⟨?_, fun st cnt r hm => (k1 _ hm).2 st cnt r rfl, k2⟩
  rw [List.countP_eq_zero]
  intro e he
  simp [(k1 e he).1]

/-- C17, on a concrete run: the full connection sees a blocking read, an ignored
writable event and then a zero return, which destroys it; the processor never runs and
both reads ask for zero bytes. -/
theorem full_buffer_stalls_witness :
    (new_effects full_config
      (dispatch_all sample_env full_calls full_config).config).countP effect_t.is_command = 0 ∧
    (∀ st cnt r, effect_t.read st cnt r ∈ new_effects full_config
        (dispatch_all sample_env full_calls full_config).config → cnt = 0) ∧
    ((∃ c', dispatch_all sample_env full_calls full_config = result_t.returned c' ∧
        c'.event.state = full_config.event.state) ∨
      (∃ c', dispatch_all sample_env full_calls full_config = result_t.fatal c') ∨
      (∃ c', dispatch_all sample_env full_calls full_config = result_t.destroyed c')) ∧
    (dispatch_all sample_env full_calls full_config).is_returned = false ∧
    (dispatch_all sample_env (full_calls.take 2) full_config).config.event.state
      = full_config.event.state :=
  ⟨(full_buffer_stalls sample_env full_calls full_config rfl rfl (by decide) (by decide)).1,
   (full_buffer_stalls sample_env full_calls full_config rfl rfl (by decide) (by decide)).2.1,
   (full_buffer_stalls sample_env full_calls full_config rfl rfl (by decide) (by decide)).2.2,
   by decide, by decide⟩

/-- The effects of an iteration at a positive read start with the read and the
processor call. -/
theorem first_command_mem (env : env_t) (x : Nat) (xs : List Nat) (rest : List read_result_t)
    (c : config_t) :
    ∃ t, new_effects c (drain_loop env (.bytes (x :: xs) :: rest) c).config
      = read_effect env c.event.state (.bytes (x :: xs)) ::
        process_effect env (advance c.event.state (x :: xs)) :: t := by
  rw [drain_loop_data]
  simp only
  split_ifs
  · exact ⟨_, new_effects_continue env rest c _
      [read_effect env c.event.state (.bytes (x :: xs)),
       process_effect env (advance c.event.state (x :: xs)),
       send_err_effect env (env.process_command (advance c.event.state (x :: xs))).2]
      (by simp [read_result_t.data])⟩
  · exact ⟨_, new_effects_of_append c _
      [read_effect env c.event.state (.bytes (x :: xs)),
       process_effect env (advance c.event.state (x :: xs)),
       send_err_effect env (env.process_command (advance c.event.state (x :: xs))).2]
      (by simp [read_result_t.data])⟩
  · exact ⟨_, new_effects_continue env rest c _
      [read_effect env c.event.state (.bytes (x :: xs)),
       process_effect env (advance c.event.state (x :: xs))]
      (by simp [read_result_t.data])⟩
  · exact ⟨_, new_effects_of_append c _
      [read_effect env c.event.state (.bytes (x :: xs)),
       process_effect env (advance c.event.state (x :: xs))]
      (by simp [read_result_t.data])⟩
  · exact ⟨_, new_effects_continue env rest c _
      [read_effect env c.event.state (.bytes (x :: xs)),
       process_effect env (advance c.event.state (x :: xs))]
      (by simp [read_result_t.data])⟩
  · exact ⟨_, new_effects_of_append c _
      [read_effect env c.event.state (.bytes (x :: xs)),
       process_effect env (advance c.event.state (x :: xs))]
      (by simp [read_result_t.data])⟩
  · exact ⟨_, new_effects_continue env rest c _
      [read_effect env c.event.state (.bytes (x :: xs)),
       process_effect env (advance c.event.state (x :: xs))]
      (by simp [read_result_t.data])⟩

/-- C18: the cursors are not cleared when a command finishes with a send pending.
(1) At a positive read after which the processor answers complete and leaves the phase
at send-incomplete, the loop returns with the connection state exactly as the processor
left it, no reset; likewise after the answer error when the error response leaves the
phase at send-incomplete, with the state exactly as the error response left it.  With
collaborators that leave the cursor alone, the cursor is then the old one plus the bytes
just read.  (2) When a later writable event finds the send completed (phase no longer
send-incomplete) by a `send_msg_to_client` that left buffer and cursor alone, on a
connection holding `n` valid bytes, and the next read is positive, then that read is
issued at offset `n` and the processor sees the old bytes followed by the new ones. -/
theorem cursors_kept_while_sending (env : env_t) :
    (∀ (x : Nat) (xs : List Nat) (rest : List read_result_t) (c : config_t),
      (env.process_command (advance c.event.state (x :: xs))).1 = 0 →
      (env.process_command (advance c.event.state (x :: xs))).2.state
        = state_t.fsm_socket_send_incomplete →
      drain_loop env (.bytes (x :: xs) :: rest) c
        = result_t.returned (after_command env c (.bytes (x :: xs))) ∧
      (after_command env c (.bytes (x :: xs))).event.state
        = (env.process_command (advance c.event.state (x :: xs))).2 ∧
      ((env.process_command (advance c.event.state (x :: xs))).2.nbuf
          = (advance c.event.state (x :: xs)).nbuf →
        (after_command env c (.bytes (x :: xs))).event.state.nbuf
          = c.event.state.nbuf + (x :: xs).length)) ∧
    (∀ (x : Nat) (xs : List Nat) (rest : List read_result_t) (c : config_t),
      (env.process_command (advance c.event.state (x :: xs))).1 = -1 →
      (env.send_err_to_client (env.process_command (advance c.event.state (x :: xs))).2).state
        = state_t.fsm_socket_send_incomplete →
      drain_loop env (.bytes (x :: xs) :: rest) c
        = result_t.returned (after_send_err env (after_command env c (.bytes (x :: xs)))) ∧
      (after_send_err env (after_command env c (.bytes (x :: xs)))).event.state
        = env.send_err_to_client (env.process_command (advance c.event.state (x :: xs))).2) ∧
    (∀ (c : config_t) (b : List Nat) (y : Nat) (ys : List Nat) (rest : List read_result_t),
      c.event.event_type = event_type_t.et_sock →
      (c.event.op = event_op_t.eo_rdwr ∨ c.event.op = event_op_t.eo_write) →
      c.event.state.buf = some b → c.event.state.nbuf ≤ b.length →
      (env.send_msg_to_client c.event.state).state ≠ state_t.fsm_socket_send_incomplete →
      (env.send_msg_to_client c.event.state).buf = c.event.state.buf →
      (env.send_msg_to_client c.event.state).nbuf = c.event.state.nbuf →
      ∃ t, new_effects c
          (fsm_socket_send_incomplete env (.bytes (y :: ys) :: rest) c).config
        = effect_t.send_msg_to_client c.event.state (env.send_msg_to_client c.event.state) ::
          read_effect env (env.send_msg_to_client c.event.state) (.bytes (y :: ys)) ::
          process_effect env (advance (env.send_msg_to_client c.event.state) (y :: ys)) :: t ∧
        read_offsets (new_effects c
          (fsm_socket_send_incomplete env (.bytes (y :: ys) :: rest) c).config)
          = c.event.state.nbuf :: read_offsets t ∧
        command_views (new_effects c
          (fsm_socket_send_incomplete env (.bytes (y :: ys) :: rest) c).config)
          = (accumulated c.event.state ++ (y :: ys)) :: command_views t) := by
  refine ⟨?_, ?_, ?_⟩
  · intro x xs rest c h0 hs
    refine ⟨?_, rfl, fun h => by rw [after_command_state]; simpa [read_result_t.data, advance] using h⟩
    rw [drain_loop_data]
    simp only [h0, or_true, if_true, show ((0 : Int) = -1) = False by simp, if_false]
    rw [if_neg (not_not.mpr (by exact hs))]
  · intro x xs rest c h1 hs
    refine ⟨?_, rfl⟩
    rw [drain_loop_data]
    simp only [h1, true_or, if_true]
    rw [if_neg (not_not.mpr (by exact hs))]
  · intro c b y ys rest hty hop hb hn hs hkb hkn
    have hcall : fsm_socket_send_incomplete env (.bytes (y :: ys) :: rest) c
        = drain_loop env (.bytes (y :: ys) :: rest)
            (next_event (after_send_msg env c) event_type_t.et_sock event_op_t.eo_read) := by
      have h1 : fsm_socket_send_incomplete env (.bytes (y :: ys) :: rest) c
          = fsm_socket_ready env (.bytes (y :: ys) :: rest)
              (next_event (after_send_msg env c) event_type_t.et_sock event_op_t.eo_read) := by
        simp [fsm_socket_send_incomplete, hty, hop, hs, after_send_msg, next_event]
      rw [h1, fsm_socket_ready_readable env _ _ rfl (Or.inr rfl)]
      congr 1
      simp [acquire_buffer, next_event, after_send_msg, hkb, hb]
    obtain ⟨t, ht⟩ := first_command_mem env y ys rest
      (next_event (after_send_msg env c) event_type_t.et_sock event_op_t.eo_read)
    have htr := drain_loop_trace env (.bytes (y :: ys) :: rest)
      (next_event (after_send_msg env c) event_type_t.et_sock event_op_t.eo_read)
    rw [ht] at htr
    have hnew := new_effects_of_append c _
      (effect_t.send_msg_to_client c.event.state (env.send_msg_to_client c.event.state) ::
        read_effect env (env.send_msg_to_client c.event.state) (.bytes (y :: ys)) ::
        process_effect env (advance (env.send_msg_to_client c.event.state) (y :: ys)) :: t)
      (by rw [htr]; simp [next_event, after_send_msg])
    rw [hcall, hnew]
    refine ⟨t, rfl, ?_, ?_⟩
    · simp [read_offsets, read_effect, process_effect, hkn]
    · have hacc : accumulated (advance (env.send_msg_to_client c.event.state) (y :: ys))
          = accumulated c.event.state ++ (y :: ys) := by
        rw [accumulated_advance _ b _ (by rw [hkb, hb]) (by rw [hkn]; exact hn)]
        simp [accumulated, hkb, hkn]
      simp [command_views, read_effect, process_effect, hacc]

/-- C18, on a concrete run: the line `P` is answered with a response that stays pending,
so the call stops with the cursor still at 2; when the writable event completes the send
the next line is read at offset 2 and the processor sees both lines. -/
theorem cursors_kept_while_sending_witness :
    (drain_loop replying_env [.bytes [80, 10], .bytes [81]]
        (acquire_buffer replying_env fresh_config)
      = result_t.returned (after_command replying_env
          (acquire_buffer replying_env fresh_config) (.bytes [80, 10])) ∧
     (after_command replying_env (acquire_buffer replying_env fresh_config)
        (.bytes [80, 10])).event.state = pending_reply_config.event.state) ∧
    (∃ t, new_effects pending_reply_config
        (fsm_socket_send_incomplete replying_env [.bytes [81, 10]]
          pending_reply_config).config
      = effect_t.send_msg_to_client pending_reply_config.event.state
          (replying_env.send_msg_to_client pending_reply_config.event.state) ::
        read_effect replying_env
          (replying_env.send_msg_to_client pending_reply_config.event.state)
          (.bytes [81, 10]) ::
        process_effect replying_env
          (advance (replying_env.send_msg_to_client pending_reply_config.event.state)
            [81, 10]) :: t ∧
      read_offsets (new_effects pending_reply_config
        (fsm_socket_send_incomplete replying_env [.bytes [81, 10]]
          pending_reply_config).config) = 2 :: read_offsets t ∧
      command_views (new_effects pending_reply_config
        (fsm_socket_send_incomplete replying_env [.bytes [81, 10]]
          pending_reply_config).config) = [80, 10, 81, 10] :: command_views t) :=
  ⟨⟨((cursors_kept_while_sending replying_env).1 80 [10] [.bytes [81]]
      (acquire_buffer replying_env fresh_config) (by decide) (by decide)).1,
    by decide⟩,
   (cursors_kept_while_sending replying_env).2.2 pending_reply_config
     [80, 10, 0, 0, 0, 0, 0, 0] 81 [10] [] rfl (Or.inr rfl) rfl (by decide) (by decide)
     rfl rfl⟩

theorem run_scheduler_idle {σ : Type} (callable : σ → σ) (n : Nat) (w : doer_world_t σ)
    (h : w.queue = []) : run_scheduler callable n w = w := by
  cases n with
  | zero => rfl
  | succ n => simp [run_scheduler, h]

/-- C12: the round trip of a thread continuation.  For every payload, every target
thread and every origin thread (equal or not), `do_on_thread(target, payload)` issued on
the origin, followed by at least two turns of the scheduler, ends with nothing pending,
no assertion failed, the object deleted, the payload applied once, and exactly this log:
the object is created; `continue_on_thread(target, this)` is called on the origin; the
payload runs on the target thread while the object is in state `state_go_to_core`;
`continue_on_thread(home_thread, this)` is called on the target thread; the object is
deleted on the origin, in state `state_go_home`.  So the payload runs exactly once, only
on the target and only in state `state_go_to_core`; the deletion happens exactly once,
after the state became `state_go_home` and after the hop home was requested; and no
payload call follows the deletion. -/
theorem thread_continuation_round_trip {σ : Type} (callable : σ → σ) (target origin : Int)
    (user : σ) (fuel : Nat) (hf : 2 ≤ fuel) :
    run_scheduler callable fuel (do_on_thread target callable (idle_world origin user))
      = { current := origin, task := none, queue := [], user := callable user,
          log := [thread_effect_t.new_thread_doer origin target,
            thread_effect_t.continue_on_thread origin target (decide (target = origin)),
            thread_effect_t.callable target
              { thread := target, home_thread := origin,
                state := doer_state_t.state_go_to_core },
            thread_effect_t.continue_on_thread target origin (decide (origin = target)),
            thread_effect_t.delete_this origin
              { thread := target, home_thread := origin,
                state := doer_state_t.state_go_home }],
          aborted := false } ∧
    (run_scheduler callable fuel
      (do_on_thread target callable (idle_world origin user))).log.countP
        thread_effect_t.is_callable = 1 ∧
    (run_scheduler callable fuel
      (do_on_thread target callable (idle_world origin user))).log.countP
        thread_effect_t.is_delete = 1 := by
  obtain ⟨n, rfl⟩ : ∃ n, fuel = n + 2 := ⟨fuel - 2, by omega⟩
  have key : run_scheduler callable (n + 2)
      (do_on_thread target callable (idle_world origin user))
      = { current := origin, task := none, queue := [], user := callable user,
          log := [thread_effect_t.new_thread_doer origin target,
            thread_effect_t.continue_on_thread origin target (decide (target = origin)),
            thread_effect_t.callable target
              { thread := target, home_thread := origin,
                state := doer_state_t.state_go_to_core },
            thread_effect_t.continue_on_thread target origin (decide (origin = target)),
            thread_effect_t.delete_this origin
              { thread := target, home_thread := origin,
                state := doer_state_t.state_go_home }],
          aborted := false } := by
    by_cases h : target = origin
    · subst h
      simp [run_scheduler, do_on_thread, idle_world, thread_doer_t.run, continue_on_thread,
        thread_doer_t.do_perform_job, thread_doer_t.do_return_home, delete_this,
        doer_world_t.emit]
    · have h' : ¬ origin = target := fun e => h e.symm
      simp [run_scheduler, do_on_thread, idle_world, thread_doer_t.run, continue_on_thread,
        thread_doer_t.do_perform_job, thread_doer_t.do_return_home, delete_this,
        doer_world_t.emit, deliver, thread_doer_t.on_thread_switch, h, h']
      exact run_scheduler_idle callable n _ rfl
  rw [key]
  exact ⟨rfl, rfl, rfl⟩

/-- C12, on concrete runs: from thread 0 to thread 3 and back, and from thread 0 to
itself; in both the payload `+ 1` is applied once to the datum 10. -/
theorem thread_continuation_round_trip_witness :
    (run_scheduler (fun n : Nat => n + 1) 2
        (do_on_thread 3 (fun n : Nat => n + 1) (idle_world 0 10))
      = { current := 0, task := none, queue := [], user := 11,
          log := [thread_effect_t.new_thread_doer 0 3,
            thread_effect_t.continue_on_thread 0 3 false,
            thread_effect_t.callable 3
              { thread := 3, home_thread := 0, state := doer_state_t.state_go_to_core },
            thread_effect_t.continue_on_thread 3 0 false,
            thread_effect_t.delete_this 0
              { thread := 3, home_thread := 0, state := doer_state_t.state_go_home }],
          aborted := false }) ∧
    (run_scheduler (fun n : Nat => n + 1) 5
        (do_on_thread 0 (fun n : Nat => n + 1) (idle_world 0 10))).log.countP
      thread_effect_t.is_callable = 1 :=
  ⟨(thread_continuation_round_trip (fun n : Nat => n + 1) 3 0 10 2 (le_refl 2)).1,
   (thread_continuation_round_trip (fun n : Nat => n + 1) 0 0 10 5 (by decide)).2.1⟩

/-- C13, as amended: a deferred task is one-shot and discards itself before it runs the
payload.  For every payload, `do_later` creates the task and queues it on the running
thread exactly once, without invoking the payload.  When the task is woken it copies
the payload, deletes itself, and then invokes the copy exactly once: the deletion
immediately precedes the invocation, which happens when the task no longer exists.
Nothing is left queued, so a further turn of the run loop does nothing. -/
theorem deferred_task_one_shot {σ : Type} (callable : σ → σ) (origin : Int) (user : σ) :
    do_later (idle_later_world origin user)
      = { current := origin, task_alive := true, later_queue := [origin], user := user,
          log := [thread_effect_t.new_later_doer origin,
            thread_effect_t.call_later_on_this_thread origin],
          aborted := false } ∧
    deliver_later callable (do_later (idle_later_world origin user))
      = { current := origin, task_alive := false, later_queue := [], user := callable user,
          log := [thread_effect_t.new_later_doer origin,
            thread_effect_t.call_later_on_this_thread origin,
            thread_effect_t.copy_callable origin,
            thread_effect_t.delete_later_doer origin,
            thread_effect_t.local_callable origin false],
          aborted := false } ∧
    deliver_later callable (deliver_later callable (do_later (idle_later_world origin user)))
      = deliver_later callable (do_later (idle_later_world origin user)) := by
  refine ⟨rfl, ?_, ?_⟩
  · simp [deliver_later, do_later, call_later_on_this_thread, idle_later_world,
      later_doer_t.on_thread_switch]
  · simp [deliver_later, do_later, call_later_on_this_thread, idle_later_world,
      later_doer_t.on_thread_switch]

/-- C13, as stated, fails on the order of deletion and invocation: in the run of
`do_later` on thread 0 with the payload `+ 1`, the task is deleted (entry 3 of the log)
before the payload is invoked (entry 4), and the invocation finds the task gone. -/
theorem deferred_task_deleted_before_call :
    (deliver_later (fun n : Nat => n + 1) (do_later (idle_later_world 0 10))).log
      = [thread_effect_t.new_later_doer 0,
         thread_effect_t.call_later_on_this_thread 0,
         thread_effect_t.copy_callable 0,
         thread_effect_t.delete_later_doer 0,
         thread_effect_t.local_callable 0 false] ∧
    ((deliver_later (fun n : Nat => n + 1) (do_later (idle_later_world 0 10))).log.map
      thread_effect_t.is_delete) = [false, false, false, true, false] ∧
    ((deliver_later (fun n : Nat => n + 1) (do_later (idle_later_world 0 10))).log.map
      thread_effect_t.is_callable) = [false, false, false, false, true] ∧
    ¬ ((deliver_later (fun n : Nat => n + 1) (do_later (idle_later_world 0 10))).log.indexOf
        (thread_effect_t.local_callable 0 false)
      < (deliver_later (fun n : Nat => n + 1) (do_later (idle_later_world 0 10))).log.indexOf
        (thread_effect_t.delete_later_doer 0)) := by
  decide

end RethinkFsm
